import Mathlib

/-!
Shallow embedding of `run.py`, a local development-environment bootstrapper.

The generic part models the step-sequencing engine: `Step` mirrors the
`InstallStep` class interface, `processStep` mirrors the per-step body of
`run_steps` (run.py lines 477-499), and `runSteps` mirrors its loop.
External commands (apt-get, brew, git, pip, ...) act on an explicit
environment record `Env`; a trace of `Event`s records the observable
actions of a run (instantiation, `always_run`, satisfaction probes,
prints, `setup` calls).

Machine-level caveats of the embedding:
  * Python exceptions are modelled explicitly: a probe returns
    `Except String Bool` (an `error` is an exception propagating out of
    `already_satisfied`, which `run_steps` does not catch), and `setup`
    returns a `SetupResult` (`commandFailed` is `sh.ErrorReturnCode`,
    caught at run.py line 487; `crash` is any other exception, uncaught).
  * `options.get('force')` / `options.get('skip')` are the raw
    comma-separated CLI strings, and `step.display_name in options.get('skip')`
    is Python's substring test on strings; `strContains` models that test.
  * Python string helpers (`split`, `strip`, `lower`, `in`) are
    re-implemented over `List Char` so that everything computes.
-/

namespace RunPy

/-- `charsStartWith p l` is true when `p` is an initial segment of `l`. -/
def charsStartWith : List Char → List Char → Bool
  | [], _ => true
  | _ :: _, [] => false
  | a :: p, b :: l => a == b && charsStartWith p l

/-- `hasSub hay needle` is true when `needle` occurs contiguously in `hay`. -/
def hasSub (hay needle : List Char) : Bool :=
  match hay with
  | [] => needle.isEmpty
  | _ :: t => charsStartWith needle hay || hasSub t needle

/-- Python's `needle in hay` substring test on strings, used by `run_steps`
for force/skip matching (run.py lines 480, 482, 489). -/
def strContains (hay needle : String) : Bool :=
  hasSub hay.toList needle.toList

/-- Outcome of a step's `setup()`: normal return, `sh.ErrorReturnCode`
(the `CommandFailed` error, carrying captured stderr), or any other
exception (uncaught by the orchestrator). -/
inductive SetupResult where
  | ok
  | commandFailed (stderr : String)
  | crash (msg : String)
deriving DecidableEq, Repr

/-- True only for the `crash` variant. -/
def SetupResult.isCrash : SetupResult → Bool
  | .crash _ => true
  | _ => false

/-- Observable actions of a run, in program order. -/
inductive Event where
  | fsMkdtemp
  | fsDownloadShLib
  | fsChmodTempDir
  | instantiate (name : String)
  | alwaysRun (name : String)
  | probe (name : String)
  | printDoing (doing : String)
  | setupCall (name : String)
  | printStderr (stderr : String)
  | printFailed (name : String)
  | printTroubleshooting (text : String)
deriving DecidableEq, Repr

/-- True only for `setupCall` events. -/
def Event.isSetupCall : Event → Bool
  | .setupCall _ => true
  | _ => false

/-- True only for `instantiate` events. -/
def Event.isInstantiation : Event → Bool
  | .instantiate _ => true
  | _ => false

/-- Number of `setup()` invocations recorded in a trace. -/
def countSetupCalls (evs : List Event) : Nat :=
  (evs.filter Event.isSetupCall).length

/-- Number of step instantiations recorded in a trace. -/
def countInstantiations (evs : List Event) : Nat :=
  (evs.filter Event.isInstantiation).length

/-- Result of processing one catalog step inside the `run_steps` loop. -/
inductive StepOutcome where
  | proceed
  | exitProc (code : Nat)
  | crashed (msg : String)
deriving DecidableEq, Repr

/-- Result of a whole run. `exited n` is a call of `exit(n)`;
`crashed` is an uncaught Python exception (the interpreter then
terminates with a non-zero status). -/
inductive Outcome where
  | completed
  | exited (code : Nat)
  | crashed (msg : String)
deriving DecidableEq, Repr

/-- Process exit status for each outcome (an uncaught exception makes the
Python interpreter exit with status 1). -/
def processExitCode : Outcome → Nat
  | .completed => 0
  | .exited n => n
  | .crashed _ => 1

/-- The user-supplied options threaded through every step
(`--force`, `--skip`, `--quiet`; run.py lines 504-510). `force` and
`skip` are the raw comma-separated CLI strings. -/
structure RunOptions where
  force : String := ""
  skip : String := ""
  quiet : Bool := false
deriving DecidableEq, Repr

/-- The `InstallStep` interface (run.py lines 83-127), over an abstract
environment type `E`.  `init` is the side effect of `__init__`
(`VirtualEnv.__init__` calls `os.chdir`); `already_satisfied` may both
mutate the environment and raise; `setup` may mutate and fail. -/
structure Step (E : Type) where
  display_name : String
  display_doing : String := ""
  root : Bool := false
  init : E → E := id
  always_run : E → E := id
  already_satisfied : E → E × Except String Bool
  setup : E → E × SetupResult
  display_troubleshooting : Option String := none

/-- Events common to every non-skipped treatment of a step:
instantiation and the unconditional `always_run()` hook. -/
def stepHeader {E : Type} (s : Step E) : List Event :=
  [.instantiate s.display_name, .alwaysRun s.display_name]

/-- Events up to and including the `print display_doing` of run.py line 484. -/
def preSetupEvents {E : Type} (s : Step E) : List Event :=
  stepHeader s ++ [.probe s.display_name, .printDoing s.display_doing]

/-- Events printed on unresolved failure (run.py lines 494-498). -/
def failureEvents {E : Type} (s : Step E) : List Event :=
  Event.printFailed s.display_name ::
    (match s.display_troubleshooting with
     | some t => [.printTroubleshooting t]
     | none => [])

/-- The `print e.stderr` of run.py line 488, when setup failed. -/
def stderrEvents : SetupResult → List Event
  | .commandFailed stderr => [.printStderr stderr]
  | _ => []

/-- run.py lines 489-499: after `setup()` returned or its
`CommandFailed` was caught, `exit(1)` when forced, otherwise re-check
`already_satisfied` once; on a still-false re-check print the failure
message and troubleshooting text and `exit(1)`. -/
def afterSetup {E : Type} (s : Step E) (opts : RunOptions) (e3 : E) (extra : List Event) :
    E × List Event × StepOutcome :=
  let evs := preSetupEvents s ++ [.setupCall s.display_name] ++ extra
  if strContains opts.force s.display_name then
    (e3, evs, .exitProc 1)
  else
    match s.already_satisfied e3 with
    | (e4, .error msg) => (e4, evs ++ [.probe s.display_name], .crashed msg)
    | (e4, .ok true) => (e4, evs ++ [.probe s.display_name], .proceed)
    | (e4, .ok false) => (e4, evs ++ [.probe s.display_name] ++ failureEvents s, .exitProc 1)

/-- run.py lines 485-488: `try: step.setup() except sh.ErrorReturnCode as e:
print e.stderr`.  Any other exception from `setup` propagates. -/
def doSetup {E : Type} (s : Step E) (opts : RunOptions) :
    E × SetupResult → E × List Event × StepOutcome
  | (e3, .ok) => afterSetup s opts e3 []
  | (e3, .commandFailed stderr) => afterSetup s opts e3 [.printStderr stderr]
  | (e3, .crash msg) =>
    (e3, preSetupEvents s ++ [.setupCall s.display_name], .crashed msg)

/-- run.py line 482 onward: the idempotent short-circuit
`if step.already_satisfied and step.display_name not in options.get('force'):
continue`, else run setup. An exception from the probe propagates. -/
def checkResult {E : Type} (s : Step E) (opts : RunOptions) :
    E × Except String Bool → E × List Event × StepOutcome
  | (e2, .error msg) =>
    (e2, stepHeader s ++ [.probe s.display_name], .crashed msg)
  | (e2, .ok sat) =>
    if sat && !strContains opts.force s.display_name then
      (e2, stepHeader s ++ [.probe s.display_name], .proceed)
    else
      doSetup s opts (s.setup e2)

/-- One iteration of the `run_steps` loop (run.py lines 477-499):
instantiate the step, call `always_run()`, skip when the name is in the
skip string, otherwise check satisfaction and run setup as needed. -/
def processStep {E : Type} (s : Step E) (opts : RunOptions) (e : E) :
    E × List Event × StepOutcome :=
  let e1 := s.always_run (s.init e)
  if strContains opts.skip s.display_name then
    (e1, stepHeader s, .proceed)
  else
    checkResult s opts (s.already_satisfied e1)

/-- The `run_steps` loop over a catalog of steps (run.py lines 477-499).
`exit(1)` and uncaught exceptions abort the whole loop. -/
def runSteps {E : Type} : List (Step E) → RunOptions → E → E × List Event × Outcome
  | [], _, e => (e, [], .completed)
  | s :: rest, opts, e =>
    match processStep s opts e with
    | (e1, evs, .proceed) =>
      let r := runSteps rest opts e1
      (r.1, evs ++ r.2.1, r.2.2)
    | (e1, evs, .exitProc n) => (e1, evs, .exited n)
    | (e1, evs, .crashed msg) => (e1, evs, .crashed msg)

/-- `already_satisfied` returned (or would return) `True` without raising:
the idempotent short-circuit of run.py line 482 applies. -/
def probeTrue {E : Type} (s : Step E) (e : E) : Prop :=
  (s.already_satisfied e).2 = Except.ok true

/-- The non-`setup` actions of step `s` (instantiation side effects,
`always_run`, the environment mutation of a probe) preserve step `t`'s
satisfaction. -/
def LightPreserves {E : Type} (s t : Step E) : Prop :=
  (∀ e, probeTrue t e → probeTrue t (s.init e)) ∧
  (∀ e, probeTrue t e → probeTrue t (s.always_run e)) ∧
  (∀ e, probeTrue t e → probeTrue t (s.already_satisfied e).1)

/-- Any processing of step `s` by the orchestrator (whatever branch is
taken) preserves step `t`'s satisfaction. -/
def FullPreserves {E : Type} (opts : RunOptions) (s t : Step E) : Prop :=
  ∀ e, probeTrue t e → probeTrue t (processStep s opts e).1

/-- The pair relation demanded of a catalog, in catalog order: a later
step's processing keeps an earlier step satisfied, and an earlier step's
non-setup actions keep a later step satisfied. -/
def StepsCompatible {E : Type} (opts : RunOptions) (s t : Step E) : Prop :=
  FullPreserves opts t s ∧ LightPreserves s t

/-! ## Concrete environment model

`Env` records the host state read and written by the catalog steps.
File contents (`/etc/hosts`, the bash profile, `requirements.txt`) are
lists of lines; installed-package sets are lists of names.  External
commands are given their documented semantics, noted per step. -/

/-- Host state acted on by the catalog steps. -/
structure Env where
  /-- `make -version` succeeds (XCode command line tools present). -/
  makeInstalled : Bool := false
  /-- `/tmp/xcode.dmg` already downloaded (run.py line 155). -/
  xcodeDmgDownloaded : Bool := false
  /-- `brew --version` succeeds (homebrew installed). -/
  brewInstalled : Bool := false
  /-- lines of `brew list -1`. -/
  brewPackages : List String := []
  /-- `virtualenv --version` succeeds. -/
  virtualenvInstalled : Bool := false
  /-- installed apt packages. -/
  aptPackages : List String := []
  /-- lines of `/etc/hosts`. -/
  hosts : List String := []
  /-- lines of the bash profile file (`.bashrc` on linux,
  `.bash_profile` on osx; run.py lines 64-72). -/
  bashConfig : List String := []
  /-- the project directory exists (`os.path.exists(project_dir)`). -/
  projectDirExists : Bool := false
  /-- `requirements.txt` content of the remote repository. -/
  repoRequirements : List String := []
  /-- `virtualenv/bin/activate_this.py` exists under the project dir. -/
  activateThisExists : Bool := false
  /-- lines of the local `requirements.txt`; `none` when the file is
  missing (then `open` raises `IOError`). -/
  requirementsLines : Option (List String) := none
  /-- lines of `pip freeze` inside the virtualenv. -/
  pipPackages : List String := []
  /-- `sqlite3.db` exists under the project dir. -/
  sqliteDbExists : Bool := false
  /-- entries of the `PATH` environment variable. -/
  pathEnv : List String := []
  /-- `os.environ['PRODUCTION']`. -/
  prodEnvVar : Option String := none
  /-- current working directory. -/
  cwd : String := "/"
deriving DecidableEq, Repr

def PROJECT_NAME : String := "advocoders"

def PROJECT_GIT_REPO : String := "git@github.com:chase-seibert/advocoders.git"

def HOST_NAMES : String := "advocoders.localhost.com"

/-- `os.path.join(home_dir, "projects", PROJECT_NAME)` (run.py line 35). -/
def projectDirPath : String := "~/projects/advocoders"

/-- `grep(cat(file), pattern)`: grep exits 0 exactly when some line
contains the pattern as a substring. -/
def grepLines (lines : List String) (pat : String) : Bool :=
  lines.any (fun l => strContains l pat)

/-- Membership test used to model Python `set` differences on
package-name lists. -/
def listHas (l : List String) (x : String) : Bool :=
  l.any (fun y => y == x)

/-- `prepend_file` (run.py lines 75-80): rewrite the file as the new
content line followed by the original contents. -/
def prepend_file (originalLines : List String) (content : String) : List String :=
  content :: originalLines

/-- Characters before the first occurrence of `sub`; Python
`line.split(sub)[0]` for a non-empty separator. -/
def takeUntilSub : List Char → List Char → List Char
  | [], _ => []
  | c :: t, sub => if charsStartWith sub (c :: t) then [] else c :: takeUntilSub t sub

/-- ASCII whitespace recognised by Python `str.strip()`. -/
def isSpaceChar (c : Char) : Bool :=
  c == ' ' || c == '\t' || c == '\n' || c == '\r'

/-- Drop leading whitespace. -/
def dropLeadSpaces : List Char → List Char
  | [] => []
  | c :: t => if isSpaceChar c then dropLeadSpaces t else c :: t

/-- Python `str.strip()`. -/
def trimChars (l : List Char) : List Char :=
  (dropLeadSpaces (dropLeadSpaces l.reverse).reverse)

/-- ASCII `str.lower()` on one character. -/
def charLower (c : Char) : Char :=
  if 'A' ≤ c ∧ c ≤ 'Z' then Char.ofNat (c.toNat + 32) else c

/-- `VirtualEnv.extract_pips` (run.py lines 325-327):
`line.split('==')[0].strip().lower()` for each line. -/
def extract_pips (lines : List String) : List String :=
  lines.map (fun line =>
    String.mk ((trimChars (takeUntilSub line.toList ['=', '='])).map charLower))

/-- Running `activate_this.py` (run.py line 345): the virtualenv
activation script prepends the sandbox bin directory to `PATH`. -/
def activateVirtualenv (e : Env) : Env :=
  { e with pathEnv := "virtualenv/bin" :: e.pathEnv }

/-- `XCodeInstall` (run.py lines 133-177).  The probe runs
`make -version` under `try/except` and returns False on any error; the
setup raises `NotImplementedError` when no download is known for the OS
version, otherwise downloads and installs the command line tools. -/
def XCodeInstall (version : Option String) : Step Env :=
  { display_name := "XCodeInstall"
    display_doing := "Downloading and installing XCode command line tools"
    root := true
    already_satisfied := fun e => (e, .ok e.makeInstalled)
    setup := fun e =>
      if version = some "10.7" ∨ version = some "10.8" then
        ({ e with xcodeDmgDownloaded := true, makeInstalled := true }, .ok)
      else
        (e, .crash "NotImplementedError: could not locate XCode download")
    display_troubleshooting :=
      some "You can manually install the XCode Command Line Tools from the Apple developer site." }

/-- `HomebrewInstall` (run.py lines 180-204).  Probe: `brew --version`
under `try/except`.  Setup: download and run the install scripts. -/
def HomebrewInstall : Step Env :=
  { display_name := "HomebrewInstall"
    display_doing := "Installing homebrew"
    already_satisfied := fun e => (e, .ok e.brewInstalled)
    setup := fun e => ({ e with brewInstalled := true }, .ok)
    display_troubleshooting :=
      some "You can install homebrew manually by running the install script with ruby." }

/-- The `dependencies` list of `BrewDependenciesInstall` (run.py 210-216). -/
def brewDependencies : List String :=
  ["libxml2", "libxslt", "libmagic", "postgresql", "libevent"]

/-- `BrewDependenciesInstall` (run.py lines 207-233).  The probe runs
`brew list -1` with NO `try/except` (run.py lines 218-222): when brew is
absent or fails, the exception propagates out of `already_satisfied`.
Satisfaction is `set(dependencies) - set(installed) == []`. -/
def BrewDependenciesInstall : Step Env :=
  { display_name := "BrewDependenciesInstall"
    display_doing := "Installing dependendies"
    already_satisfied := fun e =>
      if e.brewInstalled then
        (e, .ok (brewDependencies.all (fun d => listHas e.brewPackages d)))
      else
        (e, .error "sh.CommandNotFound: brew")
    setup := fun e =>
      if e.brewInstalled then
        ({ e with brewPackages := brewDependencies ++ e.brewPackages }, .ok)
      else
        (e, .crash "sh.CommandNotFound: brew")
    display_troubleshooting :=
      some "You can install the dependencies manually with brew install." }

/-- `VirtualEnvInstall` (run.py lines 236-248).  Probe:
`virtualenv --version` under `try/except`. -/
def VirtualEnvInstall : Step Env :=
  { display_name := "VirtualEnvInstall"
    display_doing := "Installing pip and virtualenv"
    root := true
    already_satisfied := fun e => (e, .ok e.virtualenvInstalled)
    setup := fun e => ({ e with virtualenvInstalled := true }, .ok) }

/-- The `dependencies` list of `AptDependenciesInstall` (run.py 254-262). -/
def aptDependencies : List String :=
  ["libxml2-dev", "libxslt1-dev", "libmagic1", "python-virtualenv",
   "postgresql", "libpq-dev", "libevent-dev"]

/-- `AptDependenciesInstall` (run.py lines 251-280).  Probe: the
`apt-get install --dry-run` output contains `0 upgraded, 0 newly
installed` exactly when every dependency is already installed (the
dry-run itself is modelled as succeeding).  Setup: install them all. -/
def AptDependenciesInstall : Step Env :=
  { display_name := "AptDependenciesInstall"
    display_doing := "Installing apt dependencies"
    root := true
    already_satisfied := fun e =>
      (e, .ok (aptDependencies.all (fun d => listHas e.aptPackages d)))
    setup := fun e => ({ e with aptPackages := aptDependencies ++ e.aptPackages }, .ok)
    display_troubleshooting :=
      some "You can install the dependencies manually with sudo apt-get install --yes." }

/-- `UpdateHostsFile` (run.py lines 283-302).  Probe: grep `/etc/hosts`
for `HOST_NAMES`, `sh.ErrorReturnCode` (no match) caught as False.
Setup: `prepend_file('/etc/hosts', '127.0.0.1 <HOST_NAMES>')`. -/
def UpdateHostsFile : Step Env :=
  { display_name := "UpdateHostsFile"
    display_doing := "Updating hosts file"
    root := true
    already_satisfied := fun e => (e, .ok (grepLines e.hosts HOST_NAMES))
    setup := fun e =>
      ({ e with hosts := prepend_file e.hosts ("127.0.0.1 " ++ HOST_NAMES) }, .ok)
    display_troubleshooting :=
      some "You can update your hosts file manually by appending the 127.0.0.1 entry." }

/-- `GitClone` (run.py lines 305-313).  Probe:
`os.path.exists(project_dir)`.  Setup: `git clone` creates the project
directory with the repository contents (including its
`requirements.txt`); cloning into an existing directory fails. -/
def GitClone : Step Env :=
  { display_name := "GitClone"
    display_doing := "Cloning the project repo"
    already_satisfied := fun e => (e, .ok e.projectDirExists)
    setup := fun e =>
      if e.projectDirExists then
        (e, .commandFailed "fatal: destination path already exists and is not an empty directory.")
      else
        ({ e with projectDirExists := true,
                  requirementsLines := some e.repoRequirements }, .ok) }

/-- `VirtualEnv` (run.py lines 316-356).  `__init__` calls
`os.chdir(project_dir)`.  `always_run` re-activates an existing sandbox.
The probe (lines 332-342) activates the sandbox (mutating `PATH`), reads
`pip freeze`, then `open`s `requirements.txt` with NO guard (a missing
file raises `IOError`), and compares the two via `extract_pips`.
Setup: create the virtualenv when missing, activate, `pip install -r`. -/
def VirtualEnv : Step Env :=
  { display_name := "VirtualEnv"
    display_doing := "Setting up a virtualenv and installing python dependencies"
    init := fun e => { e with cwd := projectDirPath }
    always_run := fun e => if e.activateThisExists then activateVirtualenv e else e
    already_satisfied := fun e =>
      if e.activateThisExists then
        let e1 := activateVirtualenv e
        let items_installed := extract_pips e1.pipPackages
        match e1.requirementsLines with
        | none => (e1, .error "IOError: No such file or directory: requirements.txt")
        | some req =>
          (e1, .ok ((extract_pips req).all (fun p => listHas items_installed p)))
      else
        (e, .ok false)
    setup := fun e =>
      let e1 := if e.activateThisExists then e else { e with activateThisExists := true }
      let e2 := activateVirtualenv e1
      match e2.requirementsLines with
      | none => (e2, .commandFailed "Could not open requirements file")
      | some req => ({ e2 with pipPackages := req ++ e2.pipPackages }, .ok) }

/-- `SetEnvironmentVariable` specialised to
`ProductionEnvironmentVariable` (run.py lines 359-384): variable
`PRODUCTION`, value `False`.  Probe: grep the bash profile for the
variable name, `sh.ErrorReturnCode` caught as False.  `always_run` sets
`os.environ['PRODUCTION']`.  Setup: `prepend_file` the export line. -/
def ProductionEnvironmentVariable : Step Env :=
  { display_name := "ProductionEnvironmentVariable"
    display_doing := "Setting the PRODUCTION environment variable"
    already_satisfied := fun e => (e, .ok (grepLines e.bashConfig "PRODUCTION"))
    always_run := fun e => { e with prodEnvVar := some "False" }
    setup := fun e =>
      ({ e with bashConfig := prepend_file e.bashConfig "export PRODUCTION=False" }, .ok) }

/-- `SetupDatabase` (run.py lines 387-396).  The probe checks for
`sqlite3.db` under the project dir (note: the source reads the
module-level `options` dict rather than `self.options`; at runtime when
run as a script they are the same object).  Setup: `cd` to the project
dir and run `manage.py resetdb`, which creates the database file. -/
def SetupDatabase : Step Env :=
  { display_name := "SetupDatabase"
    display_doing := "Creating a local sqlite database"
    already_satisfied := fun e => (e, .ok e.sqliteDbExists)
    setup := fun e => ({ e with cwd := projectDirPath, sqliteDbExists := true }, .ok) }

/-- The alias line written by `RunServerAlias.setup` (run.py 410-411). -/
def runserverAlias : String :=
  "alias runserver=\"cd " ++ projectDirPath ++
    "; source ../virtualenv/bin/activate; ./manage.py runserver 8001\""

/-- `RunServerAlias` (run.py lines 399-412).  Probe: grep the bash
profile for `runserver`.  Setup: `prepend_file` the alias line. -/
def RunServerAlias : Step Env :=
  { display_name := "RunServerAlias"
    display_doing := "Creating the bash alias"
    already_satisfied := fun e => (e, .ok (grepLines e.bashConfig "runserver"))
    setup := fun e =>
      ({ e with bashConfig := prepend_file e.bashConfig runserverAlias }, .ok) }

/-- `RunServer` (run.py lines 415-450).  `already_satisfied` is
constantly True; `always_run` changes to the project directory, starts
the dev server in the background, opens the browser and waits.  `setup`
is inherited from `InstallStep` and raises `NotImplementedError`. -/
def RunServer : Step Env :=
  { display_name := "RunServer"
    display_doing := "Running local development web server"
    already_satisfied := fun e => (e, .ok true)
    always_run := fun e => { e with cwd := projectDirPath }
    setup := fun e => (e, .crash "NotImplementedError") }

/-- `get_steps` (run.py lines 453-470): the ordered catalog for a
detected OS.  A pure function of the OS name (and, through
`XCodeInstall`, the OS version). -/
def get_steps (osName : String) (version : Option String) : List (Step Env) :=
  (if osName = "osx" then
    [XCodeInstall version, HomebrewInstall, BrewDependenciesInstall, VirtualEnvInstall]
   else []) ++
  (if osName = "linux" then [AptDependenciesInstall] else []) ++
  [UpdateHostsFile, GitClone, VirtualEnv, ProductionEnvironmentVariable,
   SetupDatabase, RunServerAlias, RunServer]

/-- A master list containing every catalog step once, in an order
compatible with both catalogs (each catalog is a sublist). -/
def allSteps (version : Option String) : List (Step Env) :=
  [XCodeInstall version, HomebrewInstall, BrewDependenciesInstall, VirtualEnvInstall,
   AptDependenciesInstall, UpdateHostsFile, GitClone, VirtualEnv,
   ProductionEnvironmentVariable, SetupDatabase, RunServerAlias, RunServer]

/-- Dotted version string split (Python `v.split('.')`). -/
def splitDots : List Char → List (List Char)
  | [] => [[]]
  | c :: t =>
    let r := splitDots t
    if c == '.' then [] :: r
    else
      match r with
      | [] => [[c]]
      | h :: t2 => (c :: h) :: t2

/-- Re-join with dots (Python `'.'.join(...)`). -/
def joinDots : List (List Char) → List Char
  | [] => []
  | [x] => x
  | x :: xs => x ++ '.' :: joinDots xs

/-- `get_os_and_version` (run.py lines 51-56): `darwin` maps to osx with
the major.minor of `platform.mac_ver()` (the Python `float(...)`
conversion is modelled as the major.minor string), `linux2` maps to
linux with no version, and anything else raises
`Exception("Unsupported OS: ...")`. -/
def get_os_and_version (sysPlatform : String) (macVer : String) :
    Except String (String × Option String) :=
  if sysPlatform = "darwin" then
    .ok ("osx", some (String.mk (joinDots ((splitDots macVer.toList).take 2))))
  else if sysPlatform = "linux2" then
    .ok ("linux", none)
  else
    .error ("Unsupported OS: " ++ sysPlatform)

/-- `run_steps` (run.py lines 473-499): detect the OS (an unsupported
platform raises before any step is instantiated), then drive the catalog. -/
def run_steps (sysPlatform macVer : String) (opts : RunOptions) (e : Env) :
    Env × List Event × Outcome :=
  match get_os_and_version sysPlatform macVer with
  | .error msg => (e, [], .crashed msg)
  | .ok (osName, version) => runSteps (get_steps osName version) opts e

/-- The `__main__` block (run.py lines 502-514): parse arguments, create
and enter a temporary directory (`make_temp_directory`), download the
`sh` library when it is not importable (`load_this_script_deps`),
`chmod 777` the temp dir, then call `run_steps`.  All of that happens
before OS detection. -/
def mainRun (sysPlatform macVer : String) (shImportable : Bool) (opts : RunOptions)
    (e : Env) : Env × List Event × Outcome :=
  let startup : List Event :=
    Event.fsMkdtemp ::
      ((if shImportable then [] else [Event.fsDownloadShLib]) ++ [Event.fsChmodTempDir])
  let r := run_steps sysPlatform macVer opts { e with cwd := "/tmp/tmpdir" }
  (r.1, startup ++ r.2.1, r.2.2)

/-- Filesystem mutations performed by the startup code itself, before
any step runs.  (A `setupCall` event can of course also mutate the
filesystem; this classifier only identifies the startup mutations.) -/
def Event.isStartupFsMutation : Event → Bool
  | .fsMkdtemp => true
  | .fsDownloadShLib => true
  | .fsChmodTempDir => true
  | _ => false

/-- An environment in which every catalog probe is satisfied:
used to exercise the theorems on concrete runs. -/
def envReady : Env :=
  { makeInstalled := true
    brewInstalled := true
    brewPackages := brewDependencies
    virtualenvInstalled := true
    aptPackages := aptDependencies
    hosts := ["127.0.0.1 advocoders.localhost.com"]
    bashConfig := ["export PRODUCTION=False", runserverAlias]
    projectDirExists := true
    activateThisExists := true
    requirementsLines := some []
    pipPackages := []
    sqliteDbExists := true }

/-- A fresh machine state (all defaults). -/
def env0 : Env := {}

/-- Test fixture: a step whose setup fails with a `CommandFailed` while
its satisfaction probe reports False, used to exercise the
`CommandFailed` handling theorem on a concrete input. -/
def testFailStep : Step Env :=
  { display_name := "TestFail"
    display_doing := "testing failure handling"
    already_satisfied := fun e => (e, .ok e.sqliteDbExists)
    setup := fun e => (e, .commandFailed "boom")
    display_troubleshooting := some "no troubleshooting" }

theorem runSteps_nil {E : Type} (opts : RunOptions) (e : E) :
    runSteps [] opts e = (e, [], .completed) := rfl

theorem runSteps_cons_proceed {E : Type} (s : Step E) (rest : List (Step E))
    (opts : RunOptions) (e e1 : E) (evs : List Event)
    (h : processStep s opts e = (e1, evs, .proceed)) :
    runSteps (s :: rest) opts e =
      ((runSteps rest opts e1).1, evs ++ (runSteps rest opts e1).2.1,
        (runSteps rest opts e1).2.2) := by
  simp [runSteps, h]

theorem runSteps_cons_exit {E : Type} (s : Step E) (rest : List (Step E))
    (opts : RunOptions) (e e1 : E) (evs : List Event) (n : Nat)
    (h : processStep s opts e = (e1, evs, .exitProc n)) :
    runSteps (s :: rest) opts e = (e1, evs, .exited n) := by
  simp [runSteps, h]

theorem runSteps_cons_crashed {E : Type} (s : Step E) (rest : List (Step E))
    (opts : RunOptions) (e e1 : E) (evs : List Event) (msg : String)
    (h : processStep s opts e = (e1, evs, .crashed msg)) :
    runSteps (s :: rest) opts e = (e1, evs, .crashed msg) := by
  simp [runSteps, h]

theorem runSteps_append_completed {E : Type} (xs ys : List (Step E))
    (opts : RunOptions) (e e1 : E) (evs1 : List Event)
    (h : runSteps xs opts e = (e1, evs1, .completed)) :
    runSteps (xs ++ ys) opts e =
      ((runSteps ys opts e1).1, evs1 ++ (runSteps ys opts e1).2.1,
        (runSteps ys opts e1).2.2) := by
  induction xs generalizing e evs1 with
  | nil =>
    rw [runSteps_nil] at h
    simp only [Prod.mk.injEq] at h
    obtain ⟨rfl, rfl, -⟩ := h
    simp
  | cons s rest ih =>
    rcases hp : processStep s opts e with ⟨ea, evsa, oa⟩
    cases oa with
    | proceed =>
      rw [runSteps_cons_proceed s rest opts e ea evsa hp] at h
      rcases hr : runSteps rest opts ea with ⟨eb, evsb, ob⟩
      rw [hr] at h
      simp at h
      obtain ⟨h1, h2, h3⟩ := h
      subst h1 h2
      have := ih ea evsb (by rw [hr, h3])
      rw [List.cons_append, runSteps_cons_proceed s (rest ++ ys) opts e ea evsa hp, this]
      simp
    | exitProc n =>
      rw [runSteps_cons_exit s rest opts e ea evsa n hp] at h
      simp at h
    | crashed msg =>
      rw [runSteps_cons_crashed s rest opts e ea evsa msg hp] at h
      simp at h

theorem countSetupCalls_append (a b : List Event) :
    countSetupCalls (a ++ b) = countSetupCalls a + countSetupCalls b := by
  simp [countSetupCalls, List.filter_append]

theorem processStep_skip {E : Type} (s : Step E) (opts : RunOptions) (e : E)
    (h : strContains opts.skip s.display_name = true) :
    processStep s opts e = (s.always_run (s.init e), stepHeader s, .proceed) := by
  simp [processStep, h]

theorem processStep_unskipped {E : Type} (s : Step E) (opts : RunOptions) (e : E)
    (h : strContains opts.skip s.display_name = false) :
    processStep s opts e =
      checkResult s opts (s.already_satisfied (s.always_run (s.init e))) := by
  simp [processStep, h]

theorem checkResult_error {E : Type} (s : Step E) (opts : RunOptions) (e2 : E) (msg : String) :
    checkResult s opts (e2, .error msg) =
      (e2, stepHeader s ++ [.probe s.display_name], .crashed msg) := rfl

theorem checkResult_shortcut {E : Type} (s : Step E) (opts : RunOptions) (e2 : E)
    (hf : strContains opts.force s.display_name = false) :
    checkResult s opts (e2, .ok true) =
      (e2, stepHeader s ++ [.probe s.display_name], .proceed) := by
  simp [checkResult, hf]

theorem checkResult_forced {E : Type} (s : Step E) (opts : RunOptions) (e2 e3 : E)
    (sat : Bool) (r : SetupResult)
    (hf : strContains opts.force s.display_name = true)
    (hsetup : s.setup e2 = (e3, r)) (hnc : r.isCrash = false) :
    checkResult s opts (e2, .ok sat) =
      (e3, preSetupEvents s ++ [.setupCall s.display_name] ++ stderrEvents r, .exitProc 1) := by
  cases r with
  | ok => simp [checkResult, hf, doSetup, hsetup, afterSetup, stderrEvents]
  | commandFailed stderr => simp [checkResult, hf, doSetup, hsetup, afterSetup, stderrEvents]
  | crash m => simp [SetupResult.isCrash] at hnc

theorem checkResult_cmdFailed {E : Type} (s : Step E) (opts : RunOptions) (e2 e3 e4 : E)
    (stderr : String) (b : Bool)
    (hf : strContains opts.force s.display_name = false)
    (hsetup : s.setup e2 = (e3, .commandFailed stderr))
    (hre : s.already_satisfied e3 = (e4, .ok b)) :
    checkResult s opts (e2, .ok false) =
      (e4,
       preSetupEvents s ++
         [.setupCall s.display_name, .printStderr stderr, .probe s.display_name] ++
         (if b then [] else failureEvents s),
       if b then .proceed else .exitProc 1) := by
  cases b <;> simp [checkResult, hf, doSetup, hsetup, afterSetup, hre]

theorem processStep_forced_not_proceed {E : Type} (s : Step E) (opts : RunOptions) (e : E)
    (hf : strContains opts.force s.display_name = true)
    (hs : strContains opts.skip s.display_name = false) :
    (processStep s opts e).2.2 ≠ StepOutcome.proceed := by
  rw [processStep_unskipped s opts e hs]
  rcases hpr : s.already_satisfied (s.always_run (s.init e)) with ⟨e2, r⟩
  cases r with
  | error msg => simp [checkResult]
  | ok sat =>
    simp only [checkResult, hf, Bool.not_true, Bool.and_false, Bool.false_eq_true, if_false]
    rcases hst : s.setup e2 with ⟨e3, r2⟩
    cases r2 <;> simp [doSetup, afterSetup, hf]

theorem processStep_proceed_probeTrue {E : Type} (s : Step E) (opts : RunOptions)
    (e e' : E) (evs : List Event)
    (hs : strContains opts.skip s.display_name = false)
    (hself : LightPreserves s s)
    (h : processStep s opts e = (e', evs, .proceed)) :
    probeTrue s e' := by
  rw [processStep_unskipped s opts e hs] at h
  rcases hpr : s.already_satisfied (s.always_run (s.init e)) with ⟨e2, r⟩
  rw [hpr] at h
  cases r with
  | error msg => simp [checkResult] at h
  | ok sat =>
    simp only [checkResult] at h
    by_cases hc : (sat && !strContains opts.force s.display_name) = true
    · rw [if_pos hc] at h
      simp only [Prod.mk.injEq] at h
      obtain ⟨rfl, -, -⟩ := h
      have hsat : sat = true := by
        rcases Bool.and_eq_true_iff.mp hc with ⟨h1, -⟩
        exact h1
      subst hsat
      have h1 : probeTrue s (s.always_run (s.init e)) := by
        simp [probeTrue, hpr]
      have := hself.2.2 _ h1
      rwa [hpr] at this
    · rw [if_neg hc] at h
      rcases hst : s.setup e2 with ⟨e3, r2⟩
      rw [hst] at h
      cases r2 with
      | crash m => simp [doSetup] at h
      | ok =>
        simp only [doSetup, afterSetup] at h
        by_cases hfo : strContains opts.force s.display_name = true
        · rw [if_pos hfo] at h; simp at h
        · rw [if_neg hfo] at h
          rcases hre : s.already_satisfied e3 with ⟨e4, r3⟩
          rw [hre] at h
          cases r3 with
          | error m => simp at h
          | ok b =>
            cases b with
            | false => simp at h
            | true =>
              simp only [Prod.mk.injEq] at h
              obtain ⟨rfl, -, -⟩ := h
              have h3 : probeTrue s e3 := by simp [probeTrue, hre]
              have := hself.2.2 _ h3
              rwa [hre] at this
      | commandFailed stderr =>
        simp only [doSetup, afterSetup] at h
        by_cases hfo : strContains opts.force s.display_name = true
        · rw [if_pos hfo] at h; simp at h
        · rw [if_neg hfo] at h
          rcases hre : s.already_satisfied e3 with ⟨e4, r3⟩
          rw [hre] at h
          cases r3 with
          | error m => simp at h
          | ok b =>
            cases b with
            | false => simp at h
            | true =>
              simp only [Prod.mk.injEq] at h
              obtain ⟨rfl, -, -⟩ := h
              have h3 : probeTrue s e3 := by simp [probeTrue, hre]
              have := hself.2.2 _ h3
              rwa [hre] at this

theorem fullPreserves_of_parts {E : Type} (opts : RunOptions) (t : Step E) (P : E → Prop)
    (h1 : ∀ e, P e → P (t.init e)) (h2 : ∀ e, P e → P (t.always_run e))
    (h3 : ∀ e, P e → P (t.already_satisfied e).1)
    (h4 : ∀ e, P e → P (t.setup e).1) :
    ∀ e, P e → P (processStep t opts e).1 := by
  intro e hP
  by_cases hs : strContains opts.skip t.display_name = true
  · rw [processStep_skip t opts e hs]
    exact h2 _ (h1 _ hP)
  · rw [processStep_unskipped t opts e (by simpa using hs)]
    have hP1 : P (t.always_run (t.init e)) := h2 _ (h1 _ hP)
    rcases hpr : t.already_satisfied (t.always_run (t.init e)) with ⟨e2, r⟩
    have hP2 : P e2 := by
      have := h3 _ hP1
      rwa [hpr] at this
    cases r with
    | error msg => simpa [checkResult] using hP2
    | ok sat =>
      simp only [checkResult]
      by_cases hc : (sat && !strContains opts.force t.display_name) = true
      · rw [if_pos hc]; exact hP2
      · rw [if_neg hc]
        rcases hst : t.setup e2 with ⟨e3, r2⟩
        have hP3 : P e3 := by
          have := h4 e2 hP2
          rwa [hst] at this
        cases r2 with
        | crash m => simpa [doSetup] using hP3
        | ok =>
          simp only [doSetup, afterSetup]
          by_cases hfo : strContains opts.force t.display_name = true
          · rw [if_pos hfo]; exact hP3
          · rw [if_neg hfo]
            rcases hre : t.already_satisfied e3 with ⟨e4, r3⟩
            have hP4 : P e4 := by
              have := h3 e3 hP3
              rwa [hre] at this
            cases r3 with
            | error m => exact hP4
            | ok b => cases b <;> exact hP4
        | commandFailed stderr =>
          simp only [doSetup, afterSetup]
          by_cases hfo : strContains opts.force t.display_name = true
          · rw [if_pos hfo]; exact hP3
          · rw [if_neg hfo]
            rcases hre : t.already_satisfied e3 with ⟨e4, r3⟩
            have hP4 : P e4 := by
              have := h3 e3 hP3
              rwa [hre] at this
            cases r3 with
            | error m => exact hP4
            | ok b => cases b <;> exact hP4

theorem runSteps_env_preserves {E : Type} (steps : List (Step E)) (opts : RunOptions)
    (t : Step E) (e : E)
    (hall : ∀ s ∈ steps, FullPreserves opts s t)
    (ht : probeTrue t e) :
    probeTrue t (runSteps steps opts e).1 := by
  induction steps generalizing e with
  | nil => simpa [runSteps_nil] using ht
  | cons s rest ih =>
    have hst : probeTrue t (processStep s opts e).1 :=
      hall s (List.mem_cons_self s rest) e ht
    rcases hp : processStep s opts e with ⟨e1, evs, o⟩
    rw [hp] at hst
    cases o with
    | proceed =>
      rw [runSteps_cons_proceed s rest opts e e1 evs hp]
      exact ih e1 (fun s' hs' => hall s' (List.mem_cons_of_mem s hs')) hst
    | exitProc n => rw [runSteps_cons_exit s rest opts e e1 evs n hp]; exact hst
    | crashed msg => rw [runSteps_cons_crashed s rest opts e e1 evs msg hp]; exact hst

theorem runSteps_completed_forced_skipped {E : Type} (steps : List (Step E))
    (opts : RunOptions) (e e' : E) (evs : List Event)
    (h : runSteps steps opts e = (e', evs, .completed)) :
    ∀ s ∈ steps, strContains opts.force s.display_name = true →
      strContains opts.skip s.display_name = true := by
  induction steps generalizing e evs with
  | nil => intro s hs; simp at hs
  | cons s0 rest ih =>
    intro s hs hf
    rcases hp : processStep s0 opts e with ⟨e1, evsa, o⟩
    cases o with
    | proceed =>
      rcases List.mem_cons.mp hs with rfl | hmem
      · by_contra hsk
        exact processStep_forced_not_proceed s opts e hf (by simpa using hsk)
          (by rw [hp])
      · rw [runSteps_cons_proceed s0 rest opts e e1 evsa hp] at h
        rcases hr : runSteps rest opts e1 with ⟨eb, evsb, ob⟩
        rw [hr] at h
        simp only [Prod.mk.injEq] at h
        obtain ⟨h1, -, h3⟩ := h
        exact ih e1 evsb (by rw [hr, h1, h3]) s hmem hf
    | exitProc n =>
      rw [runSteps_cons_exit s0 rest opts e e1 evsa n hp] at h
      simp at h
    | crashed msg =>
      rw [runSteps_cons_crashed s0 rest opts e e1 evsa msg hp] at h
      simp at h

theorem runSteps_completed_probeTrue {E : Type} (steps : List (Step E))
    (opts : RunOptions) (e e' : E) (evs : List Event)
    (hpair : steps.Pairwise (StepsCompatible opts))
    (hself : ∀ s ∈ steps, LightPreserves s s)
    (h : runSteps steps opts e = (e', evs, .completed)) :
    ∀ s ∈ steps, strContains opts.skip s.display_name = false → probeTrue s e' := by
  induction steps generalizing e evs with
  | nil => intro s hs; simp at hs
  | cons s0 rest ih =>
    intro s hs hsk
    rcases hp : processStep s0 opts e with ⟨e1, evsa, o⟩
    cases o with
    | proceed =>
      rw [runSteps_cons_proceed s0 rest opts e e1 evsa hp] at h
      rcases hr : runSteps rest opts e1 with ⟨eb, evsb, ob⟩
      rw [hr] at h
      simp only [Prod.mk.injEq] at h
      obtain ⟨h1, -, h3⟩ := h
      rcases List.mem_cons.mp hs with rfl | hmem
      · have hstart : probeTrue s e1 :=
          processStep_proceed_probeTrue s opts e e1 evsa hsk
            (hself s (List.mem_cons_self s rest)) hp
        have hpres : ∀ u ∈ rest, FullPreserves opts u s := by
          intro u hu
          exact ((List.pairwise_cons.mp hpair).1 u hu).1
        have := runSteps_env_preserves rest opts s e1 hpres hstart
        rw [hr] at this
        rwa [h1] at this
      · exact ih e1 evsb (List.pairwise_cons.mp hpair).2
          (fun u hu => hself u (List.mem_cons_of_mem s0 hu))
          (by rw [hr, h1, h3]) s hmem hsk
    | exitProc n =>
      rw [runSteps_cons_exit s0 rest opts e e1 evsa n hp] at h
      simp at h
    | crashed msg =>
      rw [runSteps_cons_crashed s0 rest opts e e1 evsa msg hp] at h
      simp at h

theorem runSteps_all_satisfied_no_setup {E : Type} (steps : List (Step E))
    (opts : RunOptions) (e : E)
    (hpair : steps.Pairwise (StepsCompatible opts))
    (hself : ∀ s ∈ steps, LightPreserves s s)
    (hsat : ∀ s ∈ steps, strContains opts.skip s.display_name = false → probeTrue s e)
    (hnf : ∀ s ∈ steps, strContains opts.force s.display_name = true →
      strContains opts.skip s.display_name = true) :
    countSetupCalls (runSteps steps opts e).2.1 = 0 := by
  induction steps generalizing e with
  | nil => simp [runSteps_nil, countSetupCalls]
  | cons s rest ih =>
    have hlight : ∀ t ∈ rest, LightPreserves s t := by
      intro t ht
      exact ((List.pairwise_cons.mp hpair).1 t ht).2
    by_cases hsk : strContains opts.skip s.display_name = true
    · rw [runSteps_cons_proceed s rest opts e _ _ (processStep_skip s opts e hsk)]
      have hrest : ∀ t ∈ rest, strContains opts.skip t.display_name = false →
          probeTrue t (s.always_run (s.init e)) := by
        intro t ht htsk
        have h0 := hsat t (List.mem_cons_of_mem s ht) htsk
        exact (hlight t ht).2.1 _ ((hlight t ht).1 _ h0)
      have := ih (s.always_run (s.init e)) (List.pairwise_cons.mp hpair).2
        (fun u hu => hself u (List.mem_cons_of_mem s hu))
        hrest (fun u hu => hnf u (List.mem_cons_of_mem s hu))
      simp only [countSetupCalls_append, this]
      simp [countSetupCalls, stepHeader, Event.isSetupCall]
    · have hsk' : strContains opts.skip s.display_name = false := by simpa using hsk
      have hnf' : strContains opts.force s.display_name = false := by
        by_contra hc
        exact hsk (hnf s (List.mem_cons_self s rest) (by simpa using hc))
      have hsat0 : probeTrue s e := hsat s (List.mem_cons_self s rest) hsk'
      have hsself := hself s (List.mem_cons_self s rest)
      have hsat1 : probeTrue s (s.always_run (s.init e)) :=
        hsself.2.1 _ (hsself.1 _ hsat0)
      rcases hpr : s.already_satisfied (s.always_run (s.init e)) with ⟨e2, r⟩
      have hr : r = Except.ok true := by
        have := hsat1
        rw [probeTrue, hpr] at this
        exact this
      subst hr
      have hp : processStep s opts e = (e2, stepHeader s ++ [.probe s.display_name], .proceed) := by
        rw [processStep_unskipped s opts e hsk', hpr, checkResult_shortcut s opts e2 hnf']
      rw [runSteps_cons_proceed s rest opts e _ _ hp]
      have hrest : ∀ t ∈ rest, strContains opts.skip t.display_name = false →
          probeTrue t e2 := by
        intro t ht htsk
        have h0 := hsat t (List.mem_cons_of_mem s ht) htsk
        have h1 := (hlight t ht).2.1 _ ((hlight t ht).1 _ h0)
        have h2 := (hlight t ht).2.2 _ h1
        rwa [hpr] at h2
      have := ih e2 (List.pairwise_cons.mp hpair).2
        (fun u hu => hself u (List.mem_cons_of_mem s hu)) hrest
        (fun u hu => hnf u (List.mem_cons_of_mem s hu))
      simp only [countSetupCalls_append, this]
      simp [countSetupCalls, stepHeader, Event.isSetupCall]

theorem runSteps_idem {E : Type} (steps : List (Step E)) (opts : RunOptions) (e0 : E)
    (hpair : steps.Pairwise (StepsCompatible opts))
    (hself : ∀ s ∈ steps, LightPreserves s s)
    (hc : (runSteps steps opts e0).2.2 = Outcome.completed) :
    countSetupCalls (runSteps steps opts (runSteps steps opts e0).1).2.1 = 0 := by
  rcases h1 : runSteps steps opts e0 with ⟨e1, evs1, o⟩
  rw [h1] at hc
  simp at hc
  subst hc
  exact runSteps_all_satisfied_no_setup steps opts e1 hpair hself
    (runSteps_completed_probeTrue steps opts e0 e1 evs1 hpair hself h1)
    (runSteps_completed_forced_skipped steps opts e0 e1 evs1 h1)

theorem runSteps_skipped_middle {E : Type} (opts : RunOptions)
    (pre post : List (Step E)) (s : Step E) (e0 e1 : E) (evs1 : List Event)
    (hskip : strContains opts.skip s.display_name = true)
    (hpre : runSteps pre opts e0 = (e1, evs1, .completed)) :
    runSteps (pre ++ s :: post) opts e0 =
      ((runSteps post opts (s.always_run (s.init e1))).1,
       evs1 ++ [Event.instantiate s.display_name, Event.alwaysRun s.display_name] ++
         (runSteps post opts (s.always_run (s.init e1))).2.1,
       (runSteps post opts (s.always_run (s.init e1))).2.2) := by
  rw [runSteps_append_completed pre (s :: post) opts e0 e1 evs1 hpre]
  rw [runSteps_cons_proceed s post opts e1 _ _ (processStep_skip s opts e1 hskip)]
  simp [stepHeader]

theorem runSteps_forced_middle {E : Type} (opts : RunOptions)
    (pre post : List (Step E)) (s : Step E) (e0 e1 : E) (evs1 : List Event)
    (e2 e3 : E) (sat : Bool) (r : SetupResult)
    (hforce : strContains opts.force s.display_name = true)
    (hskip : strContains opts.skip s.display_name = false)
    (hpre : runSteps pre opts e0 = (e1, evs1, .completed))
    (hprobe : s.already_satisfied (s.always_run (s.init e1)) = (e2, .ok sat))
    (hsetup : s.setup e2 = (e3, r)) (hnc : r.isCrash = false) :
    runSteps (pre ++ s :: post) opts e0 =
      (e3, evs1 ++ (preSetupEvents s ++ [Event.setupCall s.display_name] ++ stderrEvents r),
        .exited 1) := by
  have hps : processStep s opts e1 =
      (e3, preSetupEvents s ++ [Event.setupCall s.display_name] ++ stderrEvents r,
        .exitProc 1) := by
    rw [processStep_unskipped s opts e1 hskip, hprobe,
      checkResult_forced s opts e2 e3 sat r hforce hsetup hnc]
  rw [runSteps_append_completed pre (s :: post) opts e0 e1 evs1 hpre,
    runSteps_cons_exit s post opts e1 _ _ 1 hps]

theorem runSteps_cmdfailed_middle {E : Type} (opts : RunOptions)
    (pre post : List (Step E)) (s : Step E) (e0 e1 : E) (evs1 : List Event)
    (e2 e3 e4 : E) (stderr : String) (b : Bool)
    (hskip : strContains opts.skip s.display_name = false)
    (hforce : strContains opts.force s.display_name = false)
    (hpre : runSteps pre opts e0 = (e1, evs1, .completed))
    (hprobe1 : s.already_satisfied (s.always_run (s.init e1)) = (e2, .ok false))
    (hsetup : s.setup e2 = (e3, .commandFailed stderr))
    (hprobe2 : s.already_satisfied e3 = (e4, .ok b)) :
    runSteps (pre ++ s :: post) opts e0 =
      (if b then
        ((runSteps post opts e4).1,
         evs1 ++ (preSetupEvents s ++
           [Event.setupCall s.display_name, Event.printStderr stderr,
            Event.probe s.display_name]) ++ (runSteps post opts e4).2.1,
         (runSteps post opts e4).2.2)
      else
        (e4, evs1 ++ (preSetupEvents s ++
           [Event.setupCall s.display_name, Event.printStderr stderr,
            Event.probe s.display_name] ++ failureEvents s), .exited 1)) := by
  have hck := checkResult_cmdFailed s opts e2 e3 e4 stderr b hforce hsetup hprobe2
  rw [runSteps_append_completed pre (s :: post) opts e0 e1 evs1 hpre]
  cases b with
  | true =>
    have hps : processStep s opts e1 =
        (e4, preSetupEvents s ++
          [Event.setupCall s.display_name, Event.printStderr stderr,
           Event.probe s.display_name], .proceed) := by
      rw [processStep_unskipped s opts e1 hskip, hprobe1, hck]
      simp
    rw [runSteps_cons_proceed s post opts e1 _ _ hps]
    simp
  | false =>
    have hps : processStep s opts e1 =
        (e4, preSetupEvents s ++
          [Event.setupCall s.display_name, Event.printStderr stderr,
           Event.probe s.display_name] ++ failureEvents s, .exitProc 1) := by
      rw [processStep_unskipped s opts e1 hskip, hprobe1, hck]
      simp
    rw [runSteps_cons_exit s post opts e1 _ _ 1 hps]
    simp

/-! ## Satisfaction characterizations for the concrete catalog steps -/

@[simp]
theorem probeTrue_XCodeInstall (version : Option String) (e : Env) :
    probeTrue (XCodeInstall version) e ↔ e.makeInstalled = true := by
  simp [probeTrue, XCodeInstall]

@[simp]
theorem probeTrue_HomebrewInstall (e : Env) :
    probeTrue HomebrewInstall e ↔ e.brewInstalled = true := by
  simp [probeTrue, HomebrewInstall]

@[simp]
theorem probeTrue_BrewDependenciesInstall (e : Env) :
    probeTrue BrewDependenciesInstall e ↔
      (e.brewInstalled = true ∧
        brewDependencies.all (fun d => listHas e.brewPackages d) = true) := by
  by_cases h : e.brewInstalled = true <;>
    simp [probeTrue, BrewDependenciesInstall, h]

@[simp]
theorem probeTrue_VirtualEnvInstall (e : Env) :
    probeTrue VirtualEnvInstall e ↔ e.virtualenvInstalled = true := by
  simp [probeTrue, VirtualEnvInstall]

@[simp]
theorem probeTrue_AptDependenciesInstall (e : Env) :
    probeTrue AptDependenciesInstall e ↔
      aptDependencies.all (fun d => listHas e.aptPackages d) = true := by
  simp [probeTrue, AptDependenciesInstall]

@[simp]
theorem probeTrue_UpdateHostsFile (e : Env) :
    probeTrue UpdateHostsFile e ↔ grepLines e.hosts HOST_NAMES = true := by
  simp [probeTrue, UpdateHostsFile]

@[simp]
theorem probeTrue_GitClone (e : Env) :
    probeTrue GitClone e ↔ e.projectDirExists = true := by
  simp [probeTrue, GitClone]

@[simp]
theorem probeTrue_VirtualEnv (e : Env) :
    probeTrue VirtualEnv e ↔
      (e.activateThisExists = true ∧ ∃ req, e.requirementsLines = some req ∧
        (extract_pips req).all (fun p => listHas (extract_pips e.pipPackages) p) = true) := by
  by_cases h : e.activateThisExists = true
  · rcases hr : e.requirementsLines with - | req
    · simp [probeTrue, VirtualEnv, h, activateVirtualenv, hr]
    · simp [probeTrue, VirtualEnv, h, activateVirtualenv, hr]
  · simp [probeTrue, VirtualEnv, h]

@[simp]
theorem probeTrue_ProductionEnvironmentVariable (e : Env) :
    probeTrue ProductionEnvironmentVariable e ↔
      grepLines e.bashConfig "PRODUCTION" = true := by
  simp [probeTrue, ProductionEnvironmentVariable]

@[simp]
theorem probeTrue_SetupDatabase (e : Env) :
    probeTrue SetupDatabase e ↔ e.sqliteDbExists = true := by
  simp [probeTrue, SetupDatabase]

@[simp]
theorem probeTrue_RunServerAlias (e : Env) :
    probeTrue RunServerAlias e ↔ grepLines e.bashConfig "runserver" = true := by
  simp [probeTrue, RunServerAlias]

@[simp]
theorem probeTrue_RunServer (e : Env) : probeTrue RunServer e ↔ True := by
  simp [probeTrue, RunServer]

/-- No catalog probe reads `cwd`, `pathEnv`, `prodEnvVar` or
`xcodeDmgDownloaded`: satisfaction only depends on the other fields. -/
theorem probeTrue_of_fields_eq (version : Option String) (t : Step Env)
    (ht : t ∈ allSteps version) (e f : Env)
    (h1 : f.makeInstalled = e.makeInstalled)
    (h2 : f.brewInstalled = e.brewInstalled)
    (h3 : f.brewPackages = e.brewPackages)
    (h4 : f.virtualenvInstalled = e.virtualenvInstalled)
    (h5 : f.aptPackages = e.aptPackages)
    (h6 : f.hosts = e.hosts)
    (h7 : f.bashConfig = e.bashConfig)
    (h8 : f.projectDirExists = e.projectDirExists)
    (h9 : f.activateThisExists = e.activateThisExists)
    (h10 : f.requirementsLines = e.requirementsLines)
    (h11 : f.pipPackages = e.pipPackages)
    (h12 : f.sqliteDbExists = e.sqliteDbExists) :
    probeTrue t f ↔ probeTrue t e := by
  simp only [allSteps, List.mem_cons, List.not_mem_nil, or_false] at ht
  rcases ht with rfl | rfl | rfl | rfl | rfl | rfl | rfl | rfl | rfl | rfl | rfl | rfl
  · rw [probeTrue_XCodeInstall, probeTrue_XCodeInstall, h1]
  · rw [probeTrue_HomebrewInstall, probeTrue_HomebrewInstall, h2]
  · rw [probeTrue_BrewDependenciesInstall, probeTrue_BrewDependenciesInstall, h2, h3]
  · rw [probeTrue_VirtualEnvInstall, probeTrue_VirtualEnvInstall, h4]
  · rw [probeTrue_AptDependenciesInstall, probeTrue_AptDependenciesInstall, h5]
  · rw [probeTrue_UpdateHostsFile, probeTrue_UpdateHostsFile, h6]
  · rw [probeTrue_GitClone, probeTrue_GitClone, h8]
  · rw [probeTrue_VirtualEnv, probeTrue_VirtualEnv, h9, h10, h11]
  · rw [probeTrue_ProductionEnvironmentVariable, probeTrue_ProductionEnvironmentVariable, h7]
  · rw [probeTrue_SetupDatabase, probeTrue_SetupDatabase, h12]
  · rw [probeTrue_RunServerAlias, probeTrue_RunServerAlias, h7]
  · rw [probeTrue_RunServer, probeTrue_RunServer]

/-- Steps whose instantiation, `always_run` and probe leave the
environment untouched preserve every satisfaction predicate. -/
theorem lightPreserves_of_inert {E : Type} (s t : Step E)
    (h1 : ∀ e, s.init e = e) (h2 : ∀ e, s.always_run e = e)
    (h3 : ∀ e, (s.already_satisfied e).1 = e) : LightPreserves s t := by
  refine ⟨?_, ?_, ?_⟩ <;> intro e he
  · rwa [h1]
  · rwa [h2]
  · rwa [h3]

theorem lightPreserves_all (version : Option String) (s t : Step Env)
    (hs : s ∈ allSteps version) (ht : t ∈ allSteps version) : LightPreserves s t := by
  simp only [allSteps, List.mem_cons, List.not_mem_nil, or_false] at hs
  rcases hs with rfl | rfl | rfl | rfl | rfl | rfl | rfl | rfl | rfl | rfl | rfl | rfl
  · exact lightPreserves_of_inert _ t (fun e => rfl) (fun e => rfl) (fun e => rfl)
  · exact lightPreserves_of_inert _ t (fun e => rfl) (fun e => rfl) (fun e => rfl)
  · refine lightPreserves_of_inert _ t (fun e => rfl) (fun e => rfl) (fun e => ?_)
    by_cases h : e.brewInstalled = true <;> simp [BrewDependenciesInstall, h]
  · exact lightPreserves_of_inert _ t (fun e => rfl) (fun e => rfl) (fun e => rfl)
  · exact lightPreserves_of_inert _ t (fun e => rfl) (fun e => rfl) (fun e => rfl)
  · exact lightPreserves_of_inert _ t (fun e => rfl) (fun e => rfl) (fun e => rfl)
  · exact lightPreserves_of_inert _ t (fun e => rfl) (fun e => rfl) (fun e => rfl)
  · -- VirtualEnv: chdir on init, activation on always_run and inside the probe
    refine ⟨?_, ?_, ?_⟩ <;> intro e he
    · exact (probeTrue_of_fields_eq version t ht e (VirtualEnv.init e) rfl rfl rfl rfl
        rfl rfl rfl rfl rfl rfl rfl rfl).mpr he
    · show probeTrue t (if e.activateThisExists then activateVirtualenv e else e)
      by_cases h : e.activateThisExists = true
      · rw [if_pos h]
        exact (probeTrue_of_fields_eq version t ht e (activateVirtualenv e) rfl rfl rfl
          rfl rfl rfl rfl rfl rfl rfl rfl rfl).mpr he
      · rw [if_neg (by simpa using h)]
        exact he
    · show probeTrue t (VirtualEnv.already_satisfied e).1
      by_cases h : e.activateThisExists = true
      · rcases hr : e.requirementsLines with - | req
        · have : (VirtualEnv.already_satisfied e).1 = activateVirtualenv e := by
            simp [VirtualEnv, h, activateVirtualenv, hr]
          rw [this]
          exact (probeTrue_of_fields_eq version t ht e (activateVirtualenv e) rfl rfl rfl
            rfl rfl rfl rfl rfl rfl rfl rfl rfl).mpr he
        · have : (VirtualEnv.already_satisfied e).1 = activateVirtualenv e := by
            simp [VirtualEnv, h, activateVirtualenv, hr]
          rw [this]
          exact (probeTrue_of_fields_eq version t ht e (activateVirtualenv e) rfl rfl rfl
            rfl rfl rfl rfl rfl rfl rfl rfl rfl).mpr he
      · have : (VirtualEnv.already_satisfied e).1 = e := by
          simp [VirtualEnv, h]
        rw [this]
        exact he
  · -- ProductionEnvironmentVariable: always_run sets os.environ['PRODUCTION']
    refine ⟨?_, ?_, ?_⟩ <;> intro e he
    · exact he
    · exact (probeTrue_of_fields_eq version t ht e (ProductionEnvironmentVariable.always_run e)
        rfl rfl rfl rfl rfl rfl rfl rfl rfl rfl rfl rfl).mpr he
    · exact he
  · exact lightPreserves_of_inert _ t (fun e => rfl) (fun e => rfl) (fun e => rfl)
  · exact lightPreserves_of_inert _ t (fun e => rfl) (fun e => rfl) (fun e => rfl)
  · -- RunServer: always_run changes to the project directory
    refine ⟨?_, ?_, ?_⟩ <;> intro e he
    · exact he
    · exact (probeTrue_of_fields_eq version t ht e (RunServer.always_run e)
        rfl rfl rfl rfl rfl rfl rfl rfl rfl rfl rfl rfl).mpr he
    · exact he

/-! ## Monotonicity helpers for the setup effects -/

@[simp]
theorem grepLines_cons (l : List String) (x pat : String)
    (h : grepLines l pat = true) : grepLines (x :: l) pat = true := by
  simp only [grepLines, List.any_cons] at h ⊢
  simp [h]

@[simp]
theorem listHas_append_right (new old : List String) (d : String)
    (h : listHas old d = true) : listHas (new ++ old) d = true := by
  simp only [listHas, List.any_append] at h ⊢
  simp [h]

@[simp]
theorem all_listHas_append (xs new old : List String)
    (h : xs.all (fun d => listHas old d) = true) :
    xs.all (fun d => listHas (new ++ old) d) = true := by
  simp only [List.all_eq_true] at h ⊢
  exact fun x hx => listHas_append_right new old x (h x hx)

@[simp]
theorem extract_pips_append (a b : List String) :
    extract_pips (a ++ b) = extract_pips a ++ extract_pips b := by
  simp [extract_pips]

/-! ## The setup effect of each step preserves the other steps' satisfaction

One ordered exception: `GitClone.setup` rewrites `requirements.txt`
(it materialises the repository copy), which can change `VirtualEnv`'s
satisfaction — but `GitClone` precedes `VirtualEnv` in every catalog, so
only the harmless direction is ever needed. -/

theorem setupPres_XCodeInstall (version : Option String) (s : Step Env)
    (hs : s ∈ allSteps version) :
    ∀ e, probeTrue s e → probeTrue s ((XCodeInstall version).setup e).1 := by
  intro e he
  have hset : ((XCodeInstall version).setup e).1 =
      (if version = some "10.7" ∨ version = some "10.8" then
        { e with xcodeDmgDownloaded := true, makeInstalled := true } else e) := by
    by_cases h : version = some "10.7" ∨ version = some "10.8" <;> simp [XCodeInstall, h]
  rw [hset]
  by_cases h : version = some "10.7" ∨ version = some "10.8"
  · rw [if_pos h]
    simp only [allSteps, List.mem_cons, List.not_mem_nil, or_false] at hs
    rcases hs with rfl | rfl | rfl | rfl | rfl | rfl | rfl | rfl | rfl | rfl | rfl | rfl <;>
      simp_all
  · rw [if_neg h]; exact he

theorem setupPres_HomebrewInstall (version : Option String) (s : Step Env)
    (hs : s ∈ allSteps version) :
    ∀ e, probeTrue s e → probeTrue s (HomebrewInstall.setup e).1 := by
  intro e he
  have hset : (HomebrewInstall.setup e).1 = { e with brewInstalled := true } := rfl
  rw [hset]
  simp only [allSteps, List.mem_cons, List.not_mem_nil, or_false] at hs
  rcases hs with rfl | rfl | rfl | rfl | rfl | rfl | rfl | rfl | rfl | rfl | rfl | rfl <;>
    simp_all

theorem setupPres_BrewDependenciesInstall (version : Option String) (s : Step Env)
    (hs : s ∈ allSteps version) :
    ∀ e, probeTrue s e → probeTrue s (BrewDependenciesInstall.setup e).1 := by
  intro e he
  have hset : (BrewDependenciesInstall.setup e).1 =
      (if e.brewInstalled then
        { e with brewPackages := brewDependencies ++ e.brewPackages } else e) := by
    by_cases h : e.brewInstalled = true <;> simp [BrewDependenciesInstall, h]
  rw [hset]
  by_cases h : e.brewInstalled = true
  · rw [if_pos h]
    simp only [allSteps, List.mem_cons, List.not_mem_nil, or_false] at hs
    rcases hs with rfl | rfl | rfl | rfl | rfl | rfl | rfl | rfl | rfl | rfl | rfl | rfl <;>
      simp_all
  · rw [if_neg (by simpa using h)]; exact he

theorem setupPres_VirtualEnvInstall (version : Option String) (s : Step Env)
    (hs : s ∈ allSteps version) :
    ∀ e, probeTrue s e → probeTrue s (VirtualEnvInstall.setup e).1 := by
  intro e he
  have hset : (VirtualEnvInstall.setup e).1 = { e with virtualenvInstalled := true } := rfl
  rw [hset]
  simp only [allSteps, List.mem_cons, List.not_mem_nil, or_false] at hs
  rcases hs with rfl | rfl | rfl | rfl | rfl | rfl | rfl | rfl | rfl | rfl | rfl | rfl <;>
    simp_all

theorem setupPres_AptDependenciesInstall (version : Option String) (s : Step Env)
    (hs : s ∈ allSteps version) :
    ∀ e, probeTrue s e → probeTrue s (AptDependenciesInstall.setup e).1 := by
  intro e he
  have hset : (AptDependenciesInstall.setup e).1 =
      { e with aptPackages := aptDependencies ++ e.aptPackages } := rfl
  rw [hset]
  simp only [allSteps, List.mem_cons, List.not_mem_nil, or_false] at hs
  rcases hs with rfl | rfl | rfl | rfl | rfl | rfl | rfl | rfl | rfl | rfl | rfl | rfl <;>
    simp_all

theorem setupPres_UpdateHostsFile (version : Option String) (s : Step Env)
    (hs : s ∈ allSteps version) :
    ∀ e, probeTrue s e → probeTrue s (UpdateHostsFile.setup e).1 := by
  intro e he
  have hset : (UpdateHostsFile.setup e).1 =
      { e with hosts := ("127.0.0.1 " ++ HOST_NAMES) :: e.hosts } := rfl
  rw [hset]
  simp only [allSteps, List.mem_cons, List.not_mem_nil, or_false] at hs
  rcases hs with rfl | rfl | rfl | rfl | rfl | rfl | rfl | rfl | rfl | rfl | rfl | rfl <;>
    simp_all

theorem setupPres_GitClone (version : Option String) (s : Step Env)
    (hs : s ∈ allSteps version) (hsV : s.display_name ≠ "VirtualEnv") :
    ∀ e, probeTrue s e → probeTrue s (GitClone.setup e).1 := by
  intro e he
  have hset : (GitClone.setup e).1 =
      (if e.projectDirExists then e
       else { e with projectDirExists := true,
                     requirementsLines := some e.repoRequirements }) := by
    by_cases h : e.projectDirExists = true <;> simp [GitClone, h]
  rw [hset]
  by_cases h : e.projectDirExists = true
  · rw [if_pos h]; exact he
  · rw [if_neg (by simpa using h)]
    simp only [allSteps, List.mem_cons, List.not_mem_nil, or_false] at hs
    rcases hs with rfl | rfl | rfl | rfl | rfl | rfl | rfl | rfl | rfl | rfl | rfl | rfl <;>
      first
        | exact absurd rfl hsV
        | simp_all

theorem setupPres_VirtualEnv (version : Option String) (s : Step Env)
    (hs : s ∈ allSteps version) :
    ∀ e, probeTrue s e → probeTrue s (VirtualEnv.setup e).1 := by
  intro e he
  have hset : (VirtualEnv.setup e).1 =
      (match e.requirementsLines with
       | none => activateVirtualenv
           (if e.activateThisExists then e else { e with activateThisExists := true })
       | some req =>
         { activateVirtualenv
             (if e.activateThisExists then e else { e with activateThisExists := true }) with
           pipPackages := req ++ e.pipPackages }) := by
    by_cases h : e.activateThisExists = true <;>
      rcases hr : e.requirementsLines with - | req <;>
      simp [VirtualEnv, h, activateVirtualenv, hr]
  rw [hset]
  simp only [allSteps, List.mem_cons, List.not_mem_nil, or_false] at hs
  rcases hr : e.requirementsLines with - | req <;>
    by_cases h : e.activateThisExists = true <;>
    rcases hs with rfl | rfl | rfl | rfl | rfl | rfl | rfl | rfl | rfl | rfl | rfl | rfl <;>
    simp_all [activateVirtualenv]

theorem setupPres_ProductionEnvironmentVariable (version : Option String) (s : Step Env)
    (hs : s ∈ allSteps version) :
    ∀ e, probeTrue s e → probeTrue s (ProductionEnvironmentVariable.setup e).1 := by
  intro e he
  have hset : (ProductionEnvironmentVariable.setup e).1 =
      { e with bashConfig := "export PRODUCTION=False" :: e.bashConfig } := rfl
  rw [hset]
  simp only [allSteps, List.mem_cons, List.not_mem_nil, or_false] at hs
  rcases hs with rfl | rfl | rfl | rfl | rfl | rfl | rfl | rfl | rfl | rfl | rfl | rfl <;>
    simp_all

theorem setupPres_SetupDatabase (version : Option String) (s : Step Env)
    (hs : s ∈ allSteps version) :
    ∀ e, probeTrue s e → probeTrue s (SetupDatabase.setup e).1 := by
  intro e he
  have hset : (SetupDatabase.setup e).1 =
      { e with cwd := projectDirPath, sqliteDbExists := true } := rfl
  rw [hset]
  simp only [allSteps, List.mem_cons, List.not_mem_nil, or_false] at hs
  rcases hs with rfl | rfl | rfl | rfl | rfl | rfl | rfl | rfl | rfl | rfl | rfl | rfl <;>
    simp_all

theorem setupPres_RunServerAlias (version : Option String) (s : Step Env)
    (hs : s ∈ allSteps version) :
    ∀ e, probeTrue s e → probeTrue s (RunServerAlias.setup e).1 := by
  intro e he
  have hset : (RunServerAlias.setup e).1 =
      { e with bashConfig := runserverAlias :: e.bashConfig } := rfl
  rw [hset]
  simp only [allSteps, List.mem_cons, List.not_mem_nil, or_false] at hs
  rcases hs with rfl | rfl | rfl | rfl | rfl | rfl | rfl | rfl | rfl | rfl | rfl | rfl <;>
    simp_all

theorem setupPres_RunServer (version : Option String) (s : Step Env)
    (_hs : s ∈ allSteps version) :
    ∀ e, probeTrue s e → probeTrue s (RunServer.setup e).1 := by
  intro e he
  exact he

/-- Dispatch: every catalog step's setup preserves every other catalog
step's satisfaction, except the excluded `GitClone`/`VirtualEnv`
direction. -/
theorem setupPres_all (version : Option String) (t s : Step Env)
    (ht : t ∈ allSteps version) (hs : s ∈ allSteps version)
    (hbad : t.display_name = "GitClone" → s.display_name ≠ "VirtualEnv") :
    ∀ e, probeTrue s e → probeTrue s (t.setup e).1 := by
  simp only [allSteps, List.mem_cons, List.not_mem_nil, or_false] at ht
  rcases ht with rfl | rfl | rfl | rfl | rfl | rfl | rfl | rfl | rfl | rfl | rfl | rfl
  · exact setupPres_XCodeInstall version s hs
  · exact setupPres_HomebrewInstall version s hs
  · exact setupPres_BrewDependenciesInstall version s hs
  · exact setupPres_VirtualEnvInstall version s hs
  · exact setupPres_AptDependenciesInstall version s hs
  · exact setupPres_UpdateHostsFile version s hs
  · exact setupPres_GitClone version s hs (hbad rfl)
  · exact setupPres_VirtualEnv version s hs
  · exact setupPres_ProductionEnvironmentVariable version s hs
  · exact setupPres_SetupDatabase version s hs
  · exact setupPres_RunServerAlias version s hs
  · exact setupPres_RunServer version s hs

theorem fullPreserves_of_light_setup (version : Option String) (opts : RunOptions)
    (t s : Step Env) (ht : t ∈ allSteps version) (hs : s ∈ allSteps version)
    (h4 : ∀ e, probeTrue s e → probeTrue s (t.setup e).1) :
    FullPreserves opts t s := by
  have hl := lightPreserves_all version t s ht hs
  exact fullPreserves_of_parts opts t (probeTrue s) hl.1 hl.2.1 hl.2.2 h4

theorem stepsCompatible_all (version : Option String) (opts : RunOptions)
    (s t : Step Env) (hs : s ∈ allSteps version) (ht : t ∈ allSteps version)
    (hbad : t.display_name = "GitClone" → s.display_name ≠ "VirtualEnv") :
    StepsCompatible opts s t :=
  ⟨fullPreserves_of_light_setup version opts t s ht hs
      (setupPres_all version t s ht hs hbad),
    lightPreserves_all version s t hs ht⟩

theorem allSteps_pairwise (version : Option String) (opts : RunOptions) :
    (allSteps version).Pairwise (StepsCompatible opts) := by
  have key := stepsCompatible_all version opts
  have memAll : ∀ u : Step Env, ∀ l1 l2 : List (Step Env),
      allSteps version = l1 ++ u :: l2 → u ∈ allSteps version := by
    intro u l1 l2 hsplit
    rw [hsplit]
    exact List.mem_append_right l1 (List.mem_cons_self u l2)
  have hX : (XCodeInstall version).display_name ≠ "VirtualEnv" := by
    rw [show (XCodeInstall version).display_name = "XCodeInstall" from rfl]
    decide
  simp only [allSteps, List.pairwise_cons, List.mem_cons, List.not_mem_nil, or_false]
  refine ⟨?_, ?_, ?_, ?_, ?_, ?_, ?_, ?_, ?_, ?_, ?_, fun _ h => h.elim, List.Pairwise.nil⟩
  · intro t ht
    rcases ht with rfl | rfl | rfl | rfl | rfl | rfl | rfl | rfl | rfl | rfl | rfl <;>
      exact key _ _ (by simp [allSteps]) (by simp [allSteps]) (fun _ => hX)
  · intro t ht
    rcases ht with rfl | rfl | rfl | rfl | rfl | rfl | rfl | rfl | rfl | rfl <;>
      exact key _ _ (by simp [allSteps]) (by simp [allSteps]) (fun _ => by decide)
  · intro t ht
    rcases ht with rfl | rfl | rfl | rfl | rfl | rfl | rfl | rfl | rfl <;>
      exact key _ _ (by simp [allSteps]) (by simp [allSteps]) (fun _ => by decide)
  · intro t ht
    rcases ht with rfl | rfl | rfl | rfl | rfl | rfl | rfl | rfl <;>
      exact key _ _ (by simp [allSteps]) (by simp [allSteps]) (fun _ => by decide)
  · intro t ht
    rcases ht with rfl | rfl | rfl | rfl | rfl | rfl | rfl <;>
      exact key _ _ (by simp [allSteps]) (by simp [allSteps]) (fun _ => by decide)
  · intro t ht
    rcases ht with rfl | rfl | rfl | rfl | rfl | rfl <;>
      exact key _ _ (by simp [allSteps]) (by simp [allSteps]) (fun _ => by decide)
  · intro t ht
    rcases ht with rfl | rfl | rfl | rfl | rfl <;>
      exact key _ _ (by simp [allSteps]) (by simp [allSteps]) (fun _ => by decide)
  · intro t ht
    rcases ht with rfl | rfl | rfl | rfl <;>
      exact key _ _ (by simp [allSteps]) (by simp [allSteps]) (fun hgc => absurd hgc (by decide))
  · intro t ht
    rcases ht with rfl | rfl | rfl <;>
      exact key _ _ (by simp [allSteps]) (by simp [allSteps]) (fun _ => by decide)
  · intro t ht
    rcases ht with rfl | rfl <;>
      exact key _ _ (by simp [allSteps]) (by simp [allSteps]) (fun _ => by decide)
  · intro t ht
    rcases ht with rfl
    exact key _ _ (by simp [allSteps]) (by simp [allSteps]) (fun _ => by decide)

/-- Each OS catalog is a sublist of the master list. -/
theorem get_steps_sublist (osName : String) (version : Option String) :
    List.Sublist (get_steps osName version) (allSteps version) := by
  by_cases h1 : osName = "osx"
  · have h2 : ¬(osName = "linux") := by rw [h1]; decide
    unfold get_steps allSteps
    rw [if_pos h1, if_neg h2]
    exact (List.sublist_cons_self AptDependenciesInstall _).append_left _
  · by_cases h2 : osName = "linux"
    · unfold get_steps allSteps
      rw [if_neg h1, if_pos h2]
      show List.Sublist
        ([AptDependenciesInstall] ++ [UpdateHostsFile, GitClone, VirtualEnv, ProductionEnvironmentVariable,
        SetupDatabase, RunServerAlias, RunServer])
        ([XCodeInstall version, HomebrewInstall, BrewDependenciesInstall, VirtualEnvInstall]
          ++ ([AptDependenciesInstall] ++ [UpdateHostsFile, GitClone, VirtualEnv, ProductionEnvironmentVariable,
        SetupDatabase, RunServerAlias, RunServer]))
      exact List.sublist_append_right _ _
    · unfold get_steps allSteps
      rw [if_neg h1, if_neg h2]
      show List.Sublist
        ([UpdateHostsFile, GitClone, VirtualEnv, ProductionEnvironmentVariable,
        SetupDatabase, RunServerAlias, RunServer])
        ([XCodeInstall version, HomebrewInstall, BrewDependenciesInstall, VirtualEnvInstall]
          ++ (AptDependenciesInstall :: [UpdateHostsFile, GitClone, VirtualEnv, ProductionEnvironmentVariable,
        SetupDatabase, RunServerAlias, RunServer]))
      exact ((List.sublist_cons_self AptDependenciesInstall _).trans
        (List.sublist_append_right _ _))

/-! ## Claims -/

/-- C1: Idempotence of the orchestrator: for every environment state and
options, when a run of `run_steps` completes successfully, running it
again with identical inputs and no environment changes in between
performs zero `setup()` calls — every step is either skipped or
short-circuits on its `already_satisfied` check. -/
theorem c1_idempotent (sysPlatform macVer : String) (opts : RunOptions) (e0 : Env)
    (h : (run_steps sysPlatform macVer opts e0).2.2 = Outcome.completed) :
    countSetupCalls
      (run_steps sysPlatform macVer opts (run_steps sysPlatform macVer opts e0).1).2.1 = 0 := by
  rcases hos : get_os_and_version sysPlatform macVer with msg | ⟨osName, version⟩
  · simp only [run_steps, hos] at h
    exact Outcome.noConfusion h
  · simp only [run_steps, hos] at h ⊢
    exact runSteps_idem (get_steps osName version) opts e0
      ((allSteps_pairwise version opts).sublist (get_steps_sublist osName version))
      (fun s hsm =>
        lightPreserves_all version s s ((get_steps_sublist osName version).subset hsm)
          ((get_steps_sublist osName version).subset hsm))
      h

/-- Witness for C1: a completed linux run on a fully provisioned
machine, after which a second run performs zero setup calls. -/
theorem c1_idempotent_witness :
    (run_steps "linux2" "" {} envReady).2.2 = Outcome.completed ∧
    countSetupCalls
      (run_steps "linux2" "" {} (run_steps "linux2" "" {} envReady).1).2.1 = 0 :=
  ⟨by decide, c1_idempotent "linux2" "" {} envReady (by decide)⟩

/-- C2: Force override: when a step's display name matches the force set
and not the skip set, and the step is reached, its `setup()` is invoked
even when `already_satisfied` was true beforehand, and the process
terminates with exit status 1 immediately after that setup completes, so
no later catalog step is instantiated or run (the run is identical to
one with no later steps at all). -/
theorem c2_force_override {E : Type} (opts : RunOptions) (pre post : List (Step E))
    (s : Step E) (e0 e1 e2 e3 : E) (evs1 : List Event) (sat : Bool) (r : SetupResult)
    (hforce : strContains opts.force s.display_name = true)
    (hskip : strContains opts.skip s.display_name = false)
    (hpre : runSteps pre opts e0 = (e1, evs1, .completed))
    (hprobe : s.already_satisfied (s.always_run (s.init e1)) = (e2, .ok sat))
    (hsetup : s.setup e2 = (e3, r))
    (hnc : r.isCrash = false) :
    runSteps (pre ++ s :: post) opts e0 =
      (e3, evs1 ++ (preSetupEvents s ++ [Event.setupCall s.display_name] ++ stderrEvents r),
        .exited 1) ∧
    Event.setupCall s.display_name ∈ (runSteps (pre ++ s :: post) opts e0).2.1 ∧
    runSteps (pre ++ s :: post) opts e0 = runSteps (pre ++ [s]) opts e0 := by
  have h1 := runSteps_forced_middle opts pre post s e0 e1 evs1 e2 e3 sat r
    hforce hskip hpre hprobe hsetup hnc
  have h2 := runSteps_forced_middle opts pre [] s e0 e1 evs1 e2 e3 sat r
    hforce hskip hpre hprobe hsetup hnc
  refine ⟨h1, ?_, by rw [h1, h2]⟩
  rw [h1]
  simp [preSetupEvents, stepHeader]

/-- Witness for C2: forcing `UpdateHostsFile` on a machine where it is
already satisfied runs its setup and exits 1 without touching the
later `GitClone` step. -/
theorem c2_force_override_witness :
    strContains "UpdateHostsFile" UpdateHostsFile.display_name = true ∧
    strContains "" UpdateHostsFile.display_name = false ∧
    runSteps ([] : List (Step Env)) ⟨"UpdateHostsFile", "", false⟩ envReady =
      (envReady, [], .completed) ∧
    UpdateHostsFile.already_satisfied
        (UpdateHostsFile.always_run (UpdateHostsFile.init envReady)) =
      (envReady, .ok true) ∧
    UpdateHostsFile.setup envReady =
      ({ envReady with
          hosts := prepend_file envReady.hosts ("127.0.0.1 " ++ HOST_NAMES) }, .ok) ∧
    (runSteps ([] ++ UpdateHostsFile :: [GitClone]) ⟨"UpdateHostsFile", "", false⟩ envReady =
      ({ envReady with
          hosts := prepend_file envReady.hosts ("127.0.0.1 " ++ HOST_NAMES) },
       [] ++ (preSetupEvents UpdateHostsFile ++ [Event.setupCall "UpdateHostsFile"] ++
         stderrEvents .ok),
        .exited 1) ∧
    Event.setupCall "UpdateHostsFile" ∈
      (runSteps ([] ++ UpdateHostsFile :: [GitClone]) ⟨"UpdateHostsFile", "", false⟩
        envReady).2.1 ∧
    runSteps ([] ++ UpdateHostsFile :: [GitClone]) ⟨"UpdateHostsFile", "", false⟩ envReady =
      runSteps ([] ++ [UpdateHostsFile]) ⟨"UpdateHostsFile", "", false⟩ envReady) :=
  ⟨by rfl, by rfl, by rfl, by rfl, by rfl,
    c2_force_override ⟨"UpdateHostsFile", "", false⟩ [] [GitClone] UpdateHostsFile
      envReady envReady envReady _ [] true .ok
      (by rfl) (by rfl) (by rfl) (by rfl) (by rfl) (by rfl)⟩

/-- C3: Skip precedence: when a step's display name matches the skip
set, its `setup()` is never invoked — regardless of satisfaction state —
and the run continues with the next catalog step; the step only
contributes its instantiation and `always_run()` to the trace. -/
theorem c3_skip_precedence {E : Type} (opts : RunOptions) (pre post : List (Step E))
    (s : Step E) (e0 e1 : E) (evs1 : List Event)
    (hskip : strContains opts.skip s.display_name = true)
    (hpre : runSteps pre opts e0 = (e1, evs1, .completed)) :
    runSteps (pre ++ s :: post) opts e0 =
      ((runSteps post opts (s.always_run (s.init e1))).1,
       evs1 ++ [Event.instantiate s.display_name, Event.alwaysRun s.display_name] ++
         (runSteps post opts (s.always_run (s.init e1))).2.1,
       (runSteps post opts (s.always_run (s.init e1))).2.2) :=
  runSteps_skipped_middle opts pre post s e0 e1 evs1 hskip hpre

/-- Witness for C3: skipping `UpdateHostsFile` on a fresh machine (its
probe would be false) never calls its setup and proceeds to the next
step. -/
theorem c3_skip_precedence_witness :
    strContains "UpdateHostsFile" UpdateHostsFile.display_name = true ∧
    runSteps ([] : List (Step Env)) ⟨"", "UpdateHostsFile", false⟩ env0 =
      (env0, [], .completed) ∧
    runSteps ([] ++ UpdateHostsFile :: [RunServer]) ⟨"", "UpdateHostsFile", false⟩ env0 =
      ((runSteps [RunServer] ⟨"", "UpdateHostsFile", false⟩
          (UpdateHostsFile.always_run (UpdateHostsFile.init env0))).1,
       [] ++ [Event.instantiate "UpdateHostsFile", Event.alwaysRun "UpdateHostsFile"] ++
         (runSteps [RunServer] ⟨"", "UpdateHostsFile", false⟩
           (UpdateHostsFile.always_run (UpdateHostsFile.init env0))).2.1,
       (runSteps [RunServer] ⟨"", "UpdateHostsFile", false⟩
         (UpdateHostsFile.always_run (UpdateHostsFile.init env0))).2.2) :=
  ⟨by decide, by decide,
    c3_skip_precedence ⟨"", "UpdateHostsFile", false⟩ [] [RunServer] UpdateHostsFile
      env0 env0 [] (by decide) (by decide)⟩

/-- C4 counterexample: the claim that every probe converts errors to
"not satisfied" is false on the code: `BrewDependenciesInstall`'s probe
(run.py lines 218-222) has no `try/except`, so when `brew list` fails
(homebrew not installed) the exception propagates out of
`already_satisfied` instead of yielding False. -/
theorem c4_counterexample :
    (BrewDependenciesInstall.already_satisfied env0).2 =
      Except.error "sh.CommandNotFound: brew" := by rfl

/-- C4 (amended): probe totality holds for the guarded probes: every
catalog step except `BrewDependenciesInstall`, `AptDependenciesInstall`
and `VirtualEnv` (whose probes run unguarded commands or file reads)
evaluates `already_satisfied` to a boolean without raising, in every
environment state. -/
theorem c4_guarded_probes_total (version : Option String) (s : Step Env)
    (hs : s ∈ [XCodeInstall version, HomebrewInstall, VirtualEnvInstall, UpdateHostsFile,
      GitClone, ProductionEnvironmentVariable, SetupDatabase, RunServerAlias, RunServer])
    (e : Env) : ∃ b, (s.already_satisfied e).2 = Except.ok b := by
  simp only [List.mem_cons, List.not_mem_nil, or_false] at hs
  rcases hs with rfl | rfl | rfl | rfl | rfl | rfl | rfl | rfl | rfl <;> exact ⟨_, rfl⟩

/-- Witness for the amended C4: `UpdateHostsFile`'s probe on a fresh
machine returns a boolean. -/
theorem c4_guarded_probes_total_witness :
    UpdateHostsFile ∈ [XCodeInstall none, HomebrewInstall, VirtualEnvInstall,
      UpdateHostsFile, GitClone, ProductionEnvironmentVariable, SetupDatabase,
      RunServerAlias, RunServer] ∧
    ∃ b, (UpdateHostsFile.already_satisfied env0).2 = Except.ok b :=
  ⟨List.Mem.tail _ (List.Mem.tail _ (List.Mem.tail _ (List.Mem.head _))),
   c4_guarded_probes_total none UpdateHostsFile
     (List.Mem.tail _ (List.Mem.tail _ (List.Mem.tail _ (List.Mem.head _)))) env0⟩

/-- C5 counterexample: the claim that every probe is a pure read is
false on the code: `VirtualEnv.already_satisfied` (run.py lines 332-342)
calls `activate()` (line 345), which executes the virtualenv activation
script and mutates the process environment — it prepends the sandbox bin
directory to `PATH` — so the environment after the probe differs. -/
theorem c5_counterexample :
    (VirtualEnv.already_satisfied
        { env0 with activateThisExists := true, requirementsLines := some [] }).1 ≠
      { env0 with activateThisExists := true, requirementsLines := some [] } := by decide

/-- C5 (amended): probe purity holds for every catalog step except
`VirtualEnv`: their `already_satisfied` leaves the environment
unchanged, for every environment state. -/
theorem c5_other_probes_pure (version : Option String) (s : Step Env)
    (hs : s ∈ [XCodeInstall version, HomebrewInstall, BrewDependenciesInstall,
      VirtualEnvInstall, AptDependenciesInstall, UpdateHostsFile, GitClone,
      ProductionEnvironmentVariable, SetupDatabase, RunServerAlias, RunServer])
    (e : Env) : (s.already_satisfied e).1 = e := by
  simp only [List.mem_cons, List.not_mem_nil, or_false] at hs
  rcases hs with rfl | rfl | rfl | rfl | rfl | rfl | rfl | rfl | rfl | rfl | rfl <;>
    first
      | rfl
      | (by_cases h : e.brewInstalled = true <;> simp [BrewDependenciesInstall, h])

/-- Witness for the amended C5: `GitClone`'s probe leaves the
environment unchanged. -/
theorem c5_other_probes_pure_witness :
    GitClone ∈ [XCodeInstall none, HomebrewInstall, BrewDependenciesInstall,
      VirtualEnvInstall, AptDependenciesInstall, UpdateHostsFile, GitClone,
      ProductionEnvironmentVariable, SetupDatabase, RunServerAlias, RunServer] ∧
    (GitClone.already_satisfied env0).1 = env0 :=
  ⟨List.Mem.tail _ (List.Mem.tail _ (List.Mem.tail _ (List.Mem.tail _ (List.Mem.tail _
      (List.Mem.tail _ (List.Mem.head _)))))),
   c5_other_probes_pure none GitClone
     (List.Mem.tail _ (List.Mem.tail _ (List.Mem.tail _ (List.Mem.tail _ (List.Mem.tail _
       (List.Mem.tail _ (List.Mem.head _))))))) env0⟩

/-- C6: `CommandFailed` handling: when a reached, non-forced,
non-skipped step's setup raises `CommandFailed`, the orchestrator prints
the captured stderr, re-checks `already_satisfied` exactly once (the
single probe event after the setup call), and: if the re-check is false
it prints the failure message plus the troubleshooting text (when
present) and exits with status 1; if the re-check is true the run
continues with the next step. -/
theorem c6_command_failed_handling {E : Type} (opts : RunOptions)
    (pre post : List (Step E)) (s : Step E) (e0 e1 e2 e3 e4 : E) (evs1 : List Event)
    (stderr : String) (b : Bool)
    (hskip : strContains opts.skip s.display_name = false)
    (hforce : strContains opts.force s.display_name = false)
    (hpre : runSteps pre opts e0 = (e1, evs1, .completed))
    (hprobe1 : s.already_satisfied (s.always_run (s.init e1)) = (e2, .ok false))
    (hsetup : s.setup e2 = (e3, .commandFailed stderr))
    (hprobe2 : s.already_satisfied e3 = (e4, .ok b)) :
    runSteps (pre ++ s :: post) opts e0 =
      (if b then
        ((runSteps post opts e4).1,
         evs1 ++ (preSetupEvents s ++
           [Event.setupCall s.display_name, Event.printStderr stderr,
            Event.probe s.display_name]) ++ (runSteps post opts e4).2.1,
         (runSteps post opts e4).2.2)
      else
        (e4, evs1 ++ (preSetupEvents s ++
           [Event.setupCall s.display_name, Event.printStderr stderr,
            Event.probe s.display_name] ++ failureEvents s), .exited 1)) :=
  runSteps_cmdfailed_middle opts pre post s e0 e1 evs1 e2 e3 e4 stderr b
    hskip hforce hpre hprobe1 hsetup hprobe2

/-- Witness for C6: a step whose setup fails with `CommandFailed` and
whose re-check stays false prints stderr, the failure message and
troubleshooting, then exits 1. -/
theorem c6_command_failed_handling_witness :
    strContains "" testFailStep.display_name = false ∧
    runSteps ([] : List (Step Env)) {} env0 = (env0, [], .completed) ∧
    testFailStep.already_satisfied
        (testFailStep.always_run (testFailStep.init env0)) = (env0, .ok false) ∧
    testFailStep.setup env0 = (env0, .commandFailed "boom") ∧
    testFailStep.already_satisfied env0 = (env0, .ok false) ∧
    runSteps ([] ++ testFailStep :: []) ({} : RunOptions) env0 =
      (if false then
        ((runSteps [] ({} : RunOptions) env0).1,
         [] ++ (preSetupEvents testFailStep ++
           [Event.setupCall testFailStep.display_name, Event.printStderr "boom",
            Event.probe testFailStep.display_name]) ++
           (runSteps [] ({} : RunOptions) env0).2.1,
         (runSteps [] ({} : RunOptions) env0).2.2)
      else
        (env0, [] ++ (preSetupEvents testFailStep ++
           [Event.setupCall testFailStep.display_name, Event.printStderr "boom",
            Event.probe testFailStep.display_name] ++ failureEvents testFailStep),
          .exited 1)) :=
  ⟨by rfl, by rfl, by rfl, by rfl, by rfl,
    c6_command_failed_handling {} [] [] testFailStep env0 env0 env0 env0 env0 []
      "boom" false (by rfl) (by rfl) (by rfl) (by rfl) (by rfl) (by rfl)⟩

/-- C7 counterexample: the claim that no filesystem mutation occurs on
an unsupported platform is false on the code: `__main__` creates and
chmods a temporary directory (and would download the `sh` library)
before OS detection, so the trace contains filesystem mutations even
though the run crashes with the unsupported-platform error and no step
is instantiated. -/
theorem c7_counterexample :
    (mainRun "win32" "" true {} env0).2.2 = Outcome.crashed "Unsupported OS: win32" ∧
    ((mainRun "win32" "" true {} env0).2.1.filter Event.isStartupFsMutation) ≠ [] ∧
    countInstantiations (mainRun "win32" "" true {} env0).2.1 = 0 := by
  refine ⟨by decide, by decide, by decide⟩

/-- C7 (amended): on an unrecognized platform string the
unsupported-platform error is raised before any step is instantiated,
the process exit status is non-zero, no step performs any action (zero
instantiations and zero setup calls), and the only events of the run are
the startup ones: temporary-directory creation, the optional download of
the sh library, and the chmod of the temp dir — which are themselves
filesystem mutations preceding OS detection. -/
theorem c7_unsupported_platform (sysPlatform macVer : String) (shImportable : Bool)
    (opts : RunOptions) (e : Env) (msg : String)
    (h : get_os_and_version sysPlatform macVer = .error msg) :
    (mainRun sysPlatform macVer shImportable opts e).2.2 = Outcome.crashed msg ∧
    processExitCode (mainRun sysPlatform macVer shImportable opts e).2.2 ≠ 0 ∧
    countInstantiations (mainRun sysPlatform macVer shImportable opts e).2.1 = 0 ∧
    countSetupCalls (mainRun sysPlatform macVer shImportable opts e).2.1 = 0 ∧
    (mainRun sysPlatform macVer shImportable opts e).2.1 =
      Event.fsMkdtemp ::
        ((if shImportable then [] else [Event.fsDownloadShLib]) ++
          [Event.fsChmodTempDir]) := by
  have hrs : run_steps sysPlatform macVer opts { e with cwd := "/tmp/tmpdir" } =
      ({ e with cwd := "/tmp/tmpdir" }, [], .crashed msg) := by
    simp [run_steps, h]
  cases shImportable <;>
    simp [mainRun, hrs, processExitCode, countInstantiations, countSetupCalls,
      Event.isInstantiation, Event.isSetupCall]

/-- Witness for the amended C7: the platform string `win32`. -/
theorem c7_unsupported_platform_witness :
    get_os_and_version "win32" "" = Except.error "Unsupported OS: win32" ∧
    ((mainRun "win32" "" false {} env0).2.2 = Outcome.crashed "Unsupported OS: win32" ∧
     processExitCode (mainRun "win32" "" false {} env0).2.2 ≠ 0 ∧
     countInstantiations (mainRun "win32" "" false {} env0).2.1 = 0 ∧
     countSetupCalls (mainRun "win32" "" false {} env0).2.1 = 0 ∧
     (mainRun "win32" "" false {} env0).2.1 =
       Event.fsMkdtemp ::
         ((if false then [] else [Event.fsDownloadShLib]) ++ [Event.fsChmodTempDir])) :=
  ⟨by rfl,
   c7_unsupported_platform "win32" "" false {} env0 "Unsupported OS: win32" (by rfl)⟩

/-- C8 counterexample: the claim that the hosts-file entry is appended
to the existing file is false on the code: `prepend_file` (run.py lines
75-80) writes the new entry before the original contents, so for a
non-empty hosts file the result differs from appending the entry. -/
theorem c8_counterexample :
    (UpdateHostsFile.setup { env0 with hosts := ["127.0.0.1 localhost"] }).1.hosts ≠
      ["127.0.0.1 localhost"] ++ ["127.0.0.1 " ++ HOST_NAMES] := by decide

/-- C8 (amended): the shell-profile steps (environment-variable export
and runserver alias) and the hosts-file step add their new entry by
PREPENDING it via `prepend_file`: the new entry becomes the first line
and the prior contents are preserved as a suffix, for every prior
content of those files. -/
theorem c8_prepend_preserves (e : Env) :
    (UpdateHostsFile.setup e).1.hosts = ("127.0.0.1 " ++ HOST_NAMES) :: e.hosts ∧
    (ProductionEnvironmentVariable.setup e).1.bashConfig =
      "export PRODUCTION=False" :: e.bashConfig ∧
    (RunServerAlias.setup e).1.bashConfig = runserverAlias :: e.bashConfig ∧
    List.IsSuffix e.hosts (UpdateHostsFile.setup e).1.hosts ∧
    List.IsSuffix e.bashConfig (ProductionEnvironmentVariable.setup e).1.bashConfig ∧
    List.IsSuffix e.bashConfig (RunServerAlias.setup e).1.bashConfig := by
  refine ⟨rfl, rfl, rfl, ?_, ?_, ?_⟩ <;> exact List.suffix_cons _ _

/-- C9: Catalog determinism and order: `get_steps` is a pure function of
the detected OS, and for the Linux family the catalog is exactly the
eight steps apt dependencies, hosts-file update, git clone,
sandbox/virtualenv setup, environment-variable export, database setup,
runserver alias, and server launch, in that order. -/
theorem c9_linux_catalog_order :
    (get_steps "linux" none).map (fun s => s.display_name) =
      ["AptDependenciesInstall", "UpdateHostsFile", "GitClone", "VirtualEnv",
       "ProductionEnvironmentVariable", "SetupDatabase", "RunServerAlias", "RunServer"] := by
  decide

set_option linter.unusedVariables false in
/-- C10: Skip beats force: a step whose display name matches both the
skip set and the force set is skipped right after its `always_run()` is
invoked — its `setup()` is not called and the process does not terminate
at that step; the run continues with the next catalog step. -/
theorem c10_skip_beats_force {E : Type} (opts : RunOptions) (pre post : List (Step E))
    (s : Step E) (e0 e1 : E) (evs1 : List Event)
    (hskip : strContains opts.skip s.display_name = true)
    (hforce : strContains opts.force s.display_name = true)
    (hpre : runSteps pre opts e0 = (e1, evs1, .completed)) :
    runSteps (pre ++ s :: post) opts e0 =
      ((runSteps post opts (s.always_run (s.init e1))).1,
       evs1 ++ [Event.instantiate s.display_name, Event.alwaysRun s.display_name] ++
         (runSteps post opts (s.always_run (s.init e1))).2.1,
       (runSteps post opts (s.always_run (s.init e1))).2.2) ∧
    Event.alwaysRun s.display_name ∈ (runSteps (pre ++ s :: post) opts e0).2.1 := by
  have h1 := runSteps_skipped_middle opts pre post s e0 e1 evs1 hskip hpre
  refine ⟨h1, ?_⟩
  rw [h1]
  simp

/-- Witness for C10: a step name in both sets is skipped, not forced. -/
theorem c10_skip_beats_force_witness :
    strContains "UpdateHostsFile" UpdateHostsFile.display_name = true ∧
    runSteps ([] : List (Step Env)) ⟨"UpdateHostsFile", "UpdateHostsFile", false⟩ envReady =
      (envReady, [], .completed) ∧
    (runSteps ([] ++ UpdateHostsFile :: [RunServer])
        ⟨"UpdateHostsFile", "UpdateHostsFile", false⟩ envReady =
      ((runSteps [RunServer] ⟨"UpdateHostsFile", "UpdateHostsFile", false⟩
          (UpdateHostsFile.always_run (UpdateHostsFile.init envReady))).1,
       [] ++ [Event.instantiate "UpdateHostsFile", Event.alwaysRun "UpdateHostsFile"] ++
         (runSteps [RunServer] ⟨"UpdateHostsFile", "UpdateHostsFile", false⟩
           (UpdateHostsFile.always_run (UpdateHostsFile.init envReady))).2.1,
       (runSteps [RunServer] ⟨"UpdateHostsFile", "UpdateHostsFile", false⟩
         (UpdateHostsFile.always_run (UpdateHostsFile.init envReady))).2.2) ∧
     Event.alwaysRun "UpdateHostsFile" ∈
       (runSteps ([] ++ UpdateHostsFile :: [RunServer])
         ⟨"UpdateHostsFile", "UpdateHostsFile", false⟩ envReady).2.1) :=
  ⟨by decide, by decide,
    c10_skip_beats_force ⟨"UpdateHostsFile", "UpdateHostsFile", false⟩ [] [RunServer]
      UpdateHostsFile envReady envReady [] (by decide) (by decide) (by decide)⟩

end RunPy
